import Mathlib

/-!
# jwtproxy: the entry point `cmd/jwtproxy/main.go`

A shallow embedding of `main` and `waitForSignals`.

* The packages `config`, `jwt`, `proxy` and the libraries `logrus`, `flag`,
  `net/http`, `os/signal` are collaborators of `main`: every call `main` makes
  to them is recorded as an `Event`, and what they return is supplied by an
  environment `Env` (for the six fallible startup calls) or by the schedule
  (for a listener call that returns, and for signals).
* The sequential part of `main` (lines 36-74) is the function `startup`.
* The concurrent part (lines 76-94, and `waitForSignals`, lines 96-100) is a
  step function on a process state `Proc`: a schedule is a list of `Action`s,
  each of which lets one goroutine take a step, lets a blocked listener call
  return an error, or delivers a signal.
-/

namespace JwtProxy

/-! ## Collaborators -/

/-- The types `main` handles only as opaque values. -/
structure Collab where
  /-- The type of `config.SignerProxy.Signer`. -/
  SignerConfig : Type
  /-- The type of `config.VerifierProxy.Verifier`. -/
  VerifierConfig : Type
  /-- The type of `fwp`, the value returned by `jwt.NewJWTSignerHandler`. -/
  SignerHandler : Type
  /-- The type of `rvp`, the value returned by `jwt.NewJWTVerifierHandler`. -/
  VerifierHandler : Type
  /-- The type of `forwardProxy`, the value returned by `proxy.NewProxy`. -/
  ForwardProxy : Type
  /-- The type of `reverseProxy`, the value returned by `proxy.NewReverseProxy`. -/
  ReverseProxy : Type

/-- A logrus level, from the least to the most verbose. The logger writes an
entry when its own level is at least the level of the entry. -/
inductive Level where
  | Panic
  | Fatal
  | Error
  | Warn
  | Info
  | Debug
  deriving DecidableEq, Repr

/-- The number of a logrus level. -/
def Level.rank : Level → Nat
  | .Panic => 0
  | .Fatal => 1
  | .Error => 2
  | .Warn => 3
  | .Info => 4
  | .Debug => 5

/-- Whether a logger standing at level `l` writes an entry of level `entry`. -/
def Level.writes (l entry : Level) : Bool :=
  decide (entry.rank ≤ l.rank)

/-- The fields of `config.SignerProxy` that `main` reads. -/
structure SignerProxyConfig (T : Collab) where
  ListenAddr : String
  CAKeyFile : String
  CACrtFile : String
  Signer : T.SignerConfig

/-- The fields of `config.VerifierProxy` that `main` reads. -/
structure VerifierProxyConfig (T : Collab) where
  ListenAddr : String
  CrtFile : String
  KeyFile : String
  Verifier : T.VerifierConfig

/-- The value returned by `config.Load`, as far as `main` reads it. -/
structure Config (T : Collab) where
  SignerProxy : SignerProxyConfig T
  VerifierProxy : VerifierProxyConfig T

/-- The six fallible calls of the startup sequence. A Go `error` is represented
by its message, the text that `%s` prints. -/
structure Env (T : Collab) where
  Load : String → Except String (Config T)
  ParseLevel : String → Except String Level
  NewJWTSignerHandler : T.SignerConfig → Except String T.SignerHandler
  NewJWTVerifierHandler : T.VerifierConfig → Except String T.VerifierHandler
  NewProxy : T.SignerHandler → String → String → Except String T.ForwardProxy
  NewReverseProxy : T.VerifierHandler → Except String T.ReverseProxy

/-- An `http.Handler` passed to a listener: the forward or the reverse proxy. -/
abbrev Handler (T : Collab) := T.ForwardProxy ⊕ T.ReverseProxy

/-- A blocking call into `net/http`. -/
inductive Call (T : Collab) where
  | ListenAndServe (addr : String) (handler : Handler T)
  | ListenAndServeTLS (addr certFile keyFile : String) (handler : Handler T)

/-- Whether the call is `http.ListenAndServeTLS`. -/
def Call.isTLS {T : Collab} : Call T → Bool
  | .ListenAndServe _ _ => false
  | .ListenAndServeTLS _ _ _ _ => true

/-- The six startup steps, in source order. -/
inductive Step where
  | Load
  | ParseLevel
  | NewJWTSignerHandler
  | NewJWTVerifierHandler
  | NewProxy
  | NewReverseProxy
  deriving DecidableEq, Repr

/-- The steps in the order `main` runs them. -/
def Step.all : List Step :=
  [.Load, .ParseLevel, .NewJWTSignerHandler, .NewJWTVerifierHandler, .NewProxy, .NewReverseProxy]

/-- Position of a step in the startup sequence. -/
def Step.index : Step → Nat
  | .Load => 0
  | .ParseLevel => 1
  | .NewJWTSignerHandler => 2
  | .NewJWTVerifierHandler => 3
  | .NewProxy => 4
  | .NewReverseProxy => 5

/-- The format string of the `log.Fatalf` that guards each step, up to `%s`. -/
def Step.diagnostic : Step → String
  | .Load => "Failed to load configuration: "
  | .ParseLevel => "Failed to parse the log level: "
  | .NewJWTSignerHandler => "Failed to create JWT signer: "
  | .NewJWTVerifierHandler => "Failed to create JWT verifier: "
  | .NewProxy => "Failed to create forward proxy: "
  | .NewReverseProxy => "Failed to create reverse proxy: "

/-- The two `go func()` statements of `main`. -/
inductive Role where
  | forward
  | reverse
  deriving DecidableEq, Repr

/-- What `main` and its goroutines do that is visible outside them. -/
inductive Event (T : Collab) where
  | Load (path : String)
  | Usage
  | ParseLevel (lvl : String)
  | SetLevel (level : Level)
  | NewJWTSignerHandler (cfg : T.SignerConfig)
  | NewJWTVerifierHandler (cfg : T.VerifierConfig)
  | NewProxy (fwp : T.SignerHandler) (caKeyFile caCrtFile : String)
  | NewReverseProxy (rvp : T.VerifierHandler)
  | Fatalf (msg : String)
  | Infof (msg : String)
  | Fatal (err : String)
  | Serve (c : Call T)
  | Returned (c : Call T) (err : String)

/-- The startup step an event is the call of, if any. -/
def Event.step? {T : Collab} : Event T → Option Step
  | .Load _ => some .Load
  | .ParseLevel _ => some .ParseLevel
  | .NewJWTSignerHandler _ => some .NewJWTSignerHandler
  | .NewJWTVerifierHandler _ => some .NewJWTVerifierHandler
  | .NewProxy _ _ _ => some .NewProxy
  | .NewReverseProxy _ => some .NewReverseProxy
  | _ => none

/-- Whether the event is a call of `log.SetLevel`. -/
def Event.isSetLevel {T : Collab} : Event T → Bool
  | .SetLevel _ => true
  | _ => false

/-- The entries logrus writes for a sequence of events, when its logger stands
at level `l` before them: `log.SetLevel` moves the level, and `log.Infof`,
`log.Fatal` and `log.Fatalf` write their entry only if the level the logger
then stands at allows it. (`log.Fatal` and `log.Fatalf` end the process
whether they write or not.) -/
def logEntries {T : Collab} : Level → List (Event T) → List (Level × String)
  | _, [] => []
  | _, .SetLevel level :: rest => logEntries level rest
  | l, .Infof msg :: rest => (if l.writes .Info then [(.Info, msg)] else []) ++ logEntries l rest
  | l, .Fatal err :: rest => (if l.writes .Fatal then [(.Fatal, err)] else []) ++ logEntries l rest
  | l, .Fatalf msg :: rest => (if l.writes .Fatal then [(.Fatal, msg)] else []) ++ logEntries l rest
  | l, _ :: rest => logEntries l rest

/-- How the process ended. -/
inductive Exit where
  /-- The flag package ended the process (`flag.ExitOnError`). -/
  | usage
  /-- The call `os.Exit(1)` that ends `log.Fatal` and `log.Fatalf`. -/
  | fatal
  /-- The function `main` returned. -/
  | returned
  /-- A signal nobody asked to be notified of ended the process. -/
  | killed (s : Nat)
  deriving DecidableEq, Repr

/-- The exit status, where the program itself decides it. -/
def Exit.status : Exit → Option Nat
  | .fatal => some 1
  | .returned => some 0
  | .usage => none
  | .killed _ => none

/-! ## Package `flag` -/

/-- A defined flag: `flag.Flag` with a string value. -/
structure Flag where
  Name : String
  Usage : String
  Value : String
  DefValue : String
  deriving DecidableEq, Repr

/-- A set of defined flags. -/
structure FlagSet where
  formal : List Flag
  deriving DecidableEq, Repr

/-- The call `flag.NewFlagSet(os.Args[0], flag.ExitOnError)`: no flag defined. -/
def NewFlagSet : FlagSet := ⟨[]⟩

/-- The call `flag.String(name, value, usage)`: defines a string flag whose value
starts as `value`. The pointer it returns is read with `FlagSet.deref`. -/
def FlagSet.string (f : FlagSet) (name value usage : String) : FlagSet :=
  ⟨f.formal ++ [⟨name, usage, value, value⟩]⟩

/-- The value of the flag `name` among the flags `l`. -/
def Flag.valueOf : List Flag → String → String
  | [], _ => ""
  | fl :: rest, name => if fl.Name = name then fl.Value else Flag.valueOf rest name

/-- The flags `l` after the flag `name` is given the value `value`. -/
def Flag.assign : List Flag → String → String → List Flag
  | [], _, _ => []
  | fl :: rest, name, value =>
    (if fl.Name = name then { fl with Value := value } else fl) :: Flag.assign rest name value

/-- Reading the pointer returned for the flag `name`. -/
def FlagSet.deref (f : FlagSet) (name : String) : String :=
  Flag.valueOf f.formal name

/-- The names of the defined flags. -/
def FlagSet.names (f : FlagSet) : List String :=
  f.formal.map (fun fl => fl.Name)

/-- Setting one flag from the command line; `none` when no such flag is defined. -/
def FlagSet.set (f : FlagSet) (name value : String) : Option FlagSet :=
  if name ∈ f.names then some ⟨Flag.assign f.formal name value⟩ else none

/-- The call `flag.Parse()`. The command line is given as the sequence of
settings `-name=value` it contains; a name that is not defined is an error,
on which a flag set made with `flag.ExitOnError` ends the process (`none`). -/
def FlagSet.Parse (f : FlagSet) : List (String × String) → Option FlagSet
  | [] => some f
  | (name, value) :: rest =>
    match f.set name value with
    | none => none
    | some g => g.Parse rest

/-! ## `waitForSignals` -/

/-- An `os.Signal`, by number. -/
abbrev Signal := Nat

/-- The signal `syscall.SIGHUP`. -/
def SIGHUP : Signal := 1

/-- The signal `syscall.SIGINT`. -/
def SIGINT : Signal := 2

/-- The signal `syscall.SIGTERM`. -/
def SIGTERM : Signal := 15

/-- Where a call of `waitForSignals` stands. -/
inductive WaitPc where
  /-- Before `signal.Notify(interrupts, signals...)`. -/
  | notify
  /-- At `<-interrupts`. -/
  | receive
  /-- After the receive: the function has returned. -/
  | returned
  deriving DecidableEq, Repr

/-- The frame of a call of `waitForSignals`. -/
structure WaitFrame where
  /-- The argument `signals`. -/
  signals : List Signal
  pc : WaitPc
  /-- The contents of the channel `interrupts`, of capacity 1. -/
  interrupts : List Signal
  deriving DecidableEq, Repr

/-- Entering `waitForSignals(signals...)`. -/
def waitForSignals (signals : List Signal) : WaitFrame :=
  ⟨signals, .notify, []⟩

/-- Which signals `signal.Notify(c, signals...)` relays to `c`: the listed ones,
and all of them when none is listed. -/
def relays (signals : List Signal) (s : Signal) : Bool :=
  signals.isEmpty || signals.contains s

/-- Whether the frame gets the signal `s`: `signal.Notify` has run and relays
it. -/
def WaitFrame.catches (f : WaitFrame) (s : Signal) : Bool :=
  f.pc != .notify && relays f.signals s

/-- The signal `s` arrives: if caught it is sent to `interrupts` without
blocking, so it is dropped when the channel is full. -/
def WaitFrame.signal (f : WaitFrame) (s : Signal) : WaitFrame :=
  if f.catches s && f.interrupts.length < 1 then
    { f with interrupts := f.interrupts ++ [s] }
  else
    f

/-- One step of the goroutine that runs `waitForSignals`. The receive blocks
(the frame is unchanged) while the channel is empty. -/
def WaitFrame.step (f : WaitFrame) : WaitFrame :=
  match f.pc with
  | .notify => { f with pc := .receive }
  | .receive =>
    match f.interrupts with
    | [] => f
    | _ :: rest => { f with pc := .returned, interrupts := rest }
  | .returned => f

/-- What can happen to a call of `waitForSignals`. -/
inductive WaitAction where
  | step
  | signal (s : Signal)
  deriving DecidableEq, Repr

/-- A call of `waitForSignals` together with the signals that arrived. -/
structure WaitRun where
  frame : WaitFrame
  /-- The values the receive `<-interrupts` has taken from the channel. -/
  received : List Signal
  /-- The signals the process was delivered so far. -/
  delivered : List Signal
  deriving DecidableEq, Repr

/-- What the receive `<-interrupts` takes from the channel in the next step, if
the frame stands at the receive and the channel is not empty. -/
def WaitFrame.takes (f : WaitFrame) : List Signal :=
  match f.pc with
  | .receive => f.interrupts.take 1
  | _ => []

/-- One action on a call of `waitForSignals`. -/
def WaitRun.act (r : WaitRun) : WaitAction → WaitRun
  | .step => { r with frame := r.frame.step, received := r.received ++ r.frame.takes }
  | .signal s => { r with frame := r.frame.signal s, delivered := r.delivered ++ [s] }

/-- The call `waitForSignals(signals...)` under a schedule of actions. -/
def waitForSignals.run (signals : List Signal) (sched : List WaitAction) : WaitRun :=
  sched.foldl WaitRun.act ⟨waitForSignals signals, [], []⟩

/-! ## `main`: the startup sequence (lines 36-74) -/

/-- The outcome of the sequential part of `main`. -/
inductive Boot (T : Collab) where
  /-- The process ended during startup, after the given events. -/
  | exited (e : Exit) (trace : List (Event T))
  /-- The point before the first `go` statement is reached, with the local
  variables `config`, `forwardProxy` and `reverseProxy`. -/
  | ready (trace : List (Event T)) (config : Config T)
      (forwardProxy : T.ForwardProxy) (reverseProxy : T.ReverseProxy)

/-- The flag set `main` defines (lines 36-38). -/
def CommandLine : FlagSet :=
  (NewFlagSet.string "config" "" "Load configuration from the specified yaml file.").string
    "log-level" "info" "Define the logging level."

/-- Lines 41-74 of `main`, given the values `*flagConfigPath` and
`*flagLogLevel`. The events are the calls `main` makes, `log.SetLevel`
(line 53) among them; what logrus then writes for a `log.Fatalf` depends on
the level set before it and is given by `logEntries`. -/
def startupFrom {T : Collab} (env : Env T) (flagConfigPath flagLogLevel : String) : Boot T :=
  let t0 : List (Event T) := [.Load flagConfigPath]
  match env.Load flagConfigPath with
  | .error err => .exited .fatal (t0 ++ [.Usage, .Fatalf ("Failed to load configuration: " ++ err)])
  | .ok config =>
  let t1 := t0 ++ [.ParseLevel flagLogLevel]
  match env.ParseLevel flagLogLevel with
  | .error err => .exited .fatal (t1 ++ [.Fatalf ("Failed to parse the log level: " ++ err)])
  | .ok level =>
  let t2 := t1 ++ [.SetLevel level, .NewJWTSignerHandler config.SignerProxy.Signer]
  match env.NewJWTSignerHandler config.SignerProxy.Signer with
  | .error err => .exited .fatal (t2 ++ [.Fatalf ("Failed to create JWT signer: " ++ err)])
  | .ok fwp =>
  let t3 := t2 ++ [.NewJWTVerifierHandler config.VerifierProxy.Verifier]
  match env.NewJWTVerifierHandler config.VerifierProxy.Verifier with
  | .error err => .exited .fatal (t3 ++ [.Fatalf ("Failed to create JWT verifier: " ++ err)])
  | .ok rvp =>
  let t4 := t3 ++ [.NewProxy fwp config.SignerProxy.CAKeyFile config.SignerProxy.CACrtFile]
  match env.NewProxy fwp config.SignerProxy.CAKeyFile config.SignerProxy.CACrtFile with
  | .error err => .exited .fatal (t4 ++ [.Fatalf ("Failed to create forward proxy: " ++ err)])
  | .ok forwardProxy =>
  let t5 := t4 ++ [.NewReverseProxy rvp]
  match env.NewReverseProxy rvp with
  | .error err => .exited .fatal (t5 ++ [.Fatalf ("Failed to create reverse proxy: " ++ err)])
  | .ok reverseProxy => .ready t5 config forwardProxy reverseProxy

/-- Lines 36-74 of `main`: the flags are defined and parsed, then the six
startup steps run. -/
def startup {T : Collab} (env : Env T) (args : List (String × String)) : Boot T :=
  match CommandLine.Parse args with
  | none => .exited .usage []
  | some parsed => startupFrom env (parsed.deref "config") (parsed.deref "log-level")

/-! ## `main`: the goroutines (lines 76-94) -/

/-- The state of one of the two goroutines `main` creates. -/
inductive Gor (T : Collab) where
  /-- The `go` statement has not run. -/
  | absent
  /-- The goroutine exists and stands at the first statement of its body. -/
  | runnable
  /-- The goroutine is blocked inside the listener call `c`. -/
  | serving (c : Call T)
  /-- The listener call `c` has returned `err`; the statement around the call
  has not run yet. -/
  | failed (c : Call T) (err : String)
  /-- The body has returned. -/
  | done

/-- Where the goroutine of `main` stands after startup. -/
inductive MainPc where
  /-- Before the first `go func()` (line 77). -/
  | goForward
  /-- Before the second `go func()` (line 82). -/
  | goReverse
  /-- Inside `waitForSignals(syscall.SIGINT, syscall.SIGTERM)` (line 92). -/
  | waiting (f : WaitFrame)
  /-- The function `main` has returned. -/
  | returned
  deriving DecidableEq, Repr

/-- The state of the process. -/
structure Proc (T : Collab) where
  /-- How the process ended, once it has. -/
  exit : Option Exit
  /-- The events so far. -/
  trace : List (Event T)
  main : MainPc
  /-- The goroutine of lines 77-80. -/
  forward : Gor T
  /-- The goroutine of lines 82-90. -/
  reverse : Gor T
  /-- The goroutine made by `go log.Fatal(...)` on line 88: the argument it
  will pass to `log.Fatal`, once it exists. -/
  fatal : Option String
  /-- The signals delivered to the process while it ran. -/
  delivered : List Signal

/-- What logrus has written so far: the standard logger starts at level
`Info`, and the events are the calls made to it, in order. -/
def Proc.written {T : Collab} (p : Proc T) : List (Level × String) :=
  logEntries .Info p.trace

/-- The choices of the scheduler and of the outside world. -/
inductive Action where
  /-- The goroutine of `main` takes a step. -/
  | main
  /-- The goroutine of lines 77-80 takes a step. -/
  | forward
  /-- The goroutine of lines 82-90 takes a step. -/
  | reverse
  /-- The goroutine made on line 88 takes a step. -/
  | fatal
  /-- The listener call of the given goroutine returns the error `err`. -/
  | fail (r : Role) (err : String)
  /-- The signal `s` is delivered to the process. -/
  | signal (s : Signal)
  deriving DecidableEq, Repr

/-- The process state when startup has ended the process: no goroutine was
made, and nothing happens any more. -/
def Proc.ended {T : Collab} (e : Exit) (trace : List (Event T)) : Proc T :=
  { exit := some e, trace := trace, main := .goForward, forward := .absent, reverse := .absent,
    fatal := none, delivered := [] }

/-- The process state before the first `go` statement. -/
def Proc.start {T : Collab} (trace : List (Event T)) : Proc T :=
  { exit := none, trace := trace, main := .goForward, forward := .absent, reverse := .absent,
    fatal := none, delivered := [] }

/-- Without `signal.Notify`, the Go runtime ends the program on these
signals. The default handling of other signals is not modelled. -/
def defaultExits (s : Signal) : Bool :=
  s == SIGHUP || s == SIGINT || s == SIGTERM

/-- One step of the goroutine of `main`: the two `go` statements, then
`waitForSignals(syscall.SIGINT, syscall.SIGTERM)`; when that call returns,
`main` returns and the process ends. -/
def stepMain {T : Collab} (p : Proc T) : Proc T :=
  match p.main with
  | .goForward => { p with main := .goReverse, forward := .runnable }
  | .goReverse => { p with main := .waiting (waitForSignals [SIGINT, SIGTERM]), reverse := .runnable }
  | .waiting f =>
    if f.step.pc = .returned then
      { p with main := .returned, exit := some .returned }
    else
      { p with main := .waiting f.step }
  | .returned => p

/-- The listener call of the forward goroutine (line 79). -/
def forwardCall {T : Collab} (config : Config T) (forwardProxy : T.ForwardProxy) : Call T :=
  .ListenAndServe config.SignerProxy.ListenAddr (.inl forwardProxy)

/-- The listener call of the reverse goroutine (lines 83-89). -/
def reverseCall {T : Collab} (config : Config T) (reverseProxy : T.ReverseProxy) : Call T :=
  if config.VerifierProxy.CrtFile != "" && config.VerifierProxy.KeyFile != "" then
    .ListenAndServeTLS config.VerifierProxy.ListenAddr config.VerifierProxy.CrtFile
      config.VerifierProxy.KeyFile (.inr reverseProxy)
  else
    .ListenAndServe config.VerifierProxy.ListenAddr (.inr reverseProxy)

/-- The line the reverse goroutine logs before its listener call. -/
def reverseInfo {T : Collab} (config : Config T) : String :=
  if config.VerifierProxy.CrtFile != "" && config.VerifierProxy.KeyFile != "" then
    "Starting reverse proxy (Listening on '" ++ config.VerifierProxy.ListenAddr ++ "', TLS Enabled)"
  else
    "Starting reverse proxy (Listening on '" ++ config.VerifierProxy.ListenAddr ++ "', TLS Disabled)"

/-- One step of the goroutine of lines 77-80: it logs and enters
`http.ListenAndServe`; when the call has returned `err` it runs
`log.Fatal(err)`. -/
def stepForward {T : Collab} (config : Config T) (forwardProxy : T.ForwardProxy) (p : Proc T) :
    Proc T :=
  match p.forward with
  | .runnable =>
    { p with
      forward := .serving (forwardCall config forwardProxy)
      trace := p.trace ++
        [.Infof ("Starting forward proxy (Listening on '" ++ config.SignerProxy.ListenAddr ++ "')"),
         .Serve (forwardCall config forwardProxy)] }
  | .failed _ err => { p with exit := some .fatal, trace := p.trace ++ [.Fatal err] }
  | _ => p

/-- One step of the goroutine of lines 82-90. In the TLS branch a returned
error goes to `log.Fatal` in this goroutine. In the other branch the statement
is `go log.Fatal(http.ListenAndServe(...))`: the argument is evaluated in this
goroutine, so the listener call blocks here, and when it has returned `err` a
new goroutine is made to run `log.Fatal(err)` and this one ends. -/
def stepReverse {T : Collab} (config : Config T) (reverseProxy : T.ReverseProxy) (p : Proc T) :
    Proc T :=
  match p.reverse with
  | .runnable =>
    { p with
      reverse := .serving (reverseCall config reverseProxy)
      trace := p.trace ++ [.Infof (reverseInfo config), .Serve (reverseCall config reverseProxy)] }
  | .failed (.ListenAndServeTLS _ _ _ _) err =>
    { p with exit := some .fatal, trace := p.trace ++ [.Fatal err] }
  | .failed (.ListenAndServe _ _) err => { p with reverse := .done, fatal := some err }
  | _ => p

/-- One step of the goroutine made on line 88: `log.Fatal(err)`. -/
def stepFatal {T : Collab} (p : Proc T) : Proc T :=
  match p.fatal with
  | some err => { p with exit := some .fatal, trace := p.trace ++ [.Fatal err] }
  | none => p

/-- A listener call returns `err` to the goroutine blocked in it. -/
def stepFail {T : Collab} (r : Role) (err : String) (p : Proc T) : Proc T :=
  match r with
  | .forward =>
    match p.forward with
    | .serving c => { p with forward := .failed c err, trace := p.trace ++ [.Returned c err] }
    | _ => p
  | .reverse =>
    match p.reverse with
    | .serving c => { p with reverse := .failed c err, trace := p.trace ++ [.Returned c err] }
    | _ => p

/-- The signal `s` is delivered. If `main` is inside `waitForSignals` and
`signal.Notify` relays `s`, it goes to the channel; otherwise the default
handling applies. -/
def stepSignal {T : Collab} (s : Signal) (p : Proc T) : Proc T :=
  match p.main with
  | .waiting f =>
    if f.catches s then
      { p with main := .waiting (f.signal s), delivered := p.delivered ++ [s] }
    else if defaultExits s then
      { p with exit := some (.killed s), delivered := p.delivered ++ [s] }
    else
      { p with delivered := p.delivered ++ [s] }
  | _ =>
    if defaultExits s then
      { p with exit := some (.killed s), delivered := p.delivered ++ [s] }
    else
      { p with delivered := p.delivered ++ [s] }

/-- One action on the process; nothing happens once the process has ended. -/
def step {T : Collab} (config : Config T) (forwardProxy : T.ForwardProxy)
    (reverseProxy : T.ReverseProxy) (p : Proc T) (a : Action) : Proc T :=
  match p.exit with
  | some _ => p
  | none =>
    match a with
    | .main => stepMain p
    | .forward => stepForward config forwardProxy p
    | .reverse => stepReverse config reverseProxy p
    | .fatal => stepFatal p
    | .fail r err => stepFail r err p
    | .signal s => stepSignal s p

/-- The process under a schedule. -/
def run {T : Collab} (config : Config T) (forwardProxy : T.ForwardProxy)
    (reverseProxy : T.ReverseProxy) (p : Proc T) : List Action → Proc T
  | [] => p
  | a :: rest => run config forwardProxy reverseProxy (step config forwardProxy reverseProxy p a) rest

/-- The program: `main` in the environment `env`, on the command line `args`,
under the schedule `sched`. -/
def main {T : Collab} (env : Env T) (args : List (String × String)) (sched : List Action) : Proc T :=
  match startup env args with
  | .exited e trace => Proc.ended e trace
  | .ready trace config forwardProxy reverseProxy =>
    run config forwardProxy reverseProxy (Proc.start trace) sched

/-- Whether the goroutine is inside a listener call. -/
def Gor.isServing {T : Collab} : Gor T → Bool
  | .serving _ => true
  | _ => false

/-- The six startup steps all succeed on the flag values `path` and `lvl`: each
call returns a value, and the next call is made on that value as `main` makes
it. -/
def Env.succeeds {T : Collab} (env : Env T) (path lvl : String) : Prop :=
  ∃ config level fwp rvp forwardProxy reverseProxy,
    env.Load path = .ok config ∧
    env.ParseLevel lvl = .ok level ∧
    env.NewJWTSignerHandler config.SignerProxy.Signer = .ok fwp ∧
    env.NewJWTVerifierHandler config.VerifierProxy.Verifier = .ok rvp ∧
    env.NewProxy fwp config.SignerProxy.CAKeyFile config.SignerProxy.CACrtFile = .ok forwardProxy ∧
    env.NewReverseProxy rvp = .ok reverseProxy

/-- The earliest step, in the order of `Step.all`, whose call returns an
error, with that error; `none` when no call does. -/
def Env.firstFailure {T : Collab} (env : Env T) (path lvl : String) : Option (Step × String) :=
  match env.Load path with
  | .error err => some (.Load, err)
  | .ok config =>
  match env.ParseLevel lvl with
  | .error err => some (.ParseLevel, err)
  | .ok _ =>
  match env.NewJWTSignerHandler config.SignerProxy.Signer with
  | .error err => some (.NewJWTSignerHandler, err)
  | .ok fwp =>
  match env.NewJWTVerifierHandler config.VerifierProxy.Verifier with
  | .error err => some (.NewJWTVerifierHandler, err)
  | .ok rvp =>
  match env.NewProxy fwp config.SignerProxy.CAKeyFile config.SignerProxy.CACrtFile with
  | .error err => some (.NewProxy, err)
  | .ok _ =>
  match env.NewReverseProxy rvp with
  | .error err => some (.NewReverseProxy, err)
  | .ok _ => none

/-- The facts about signals that hold in every state the process reaches after
startup. -/
structure SignalInv {T : Collab} (p : Proc T) : Prop where
  frame : ∀ f, p.main = .waiting f →
    f.signals = [SIGINT, SIGTERM] ∧ f.pc ≠ .returned ∧ (f.pc = .notify → f.interrupts = []) ∧
      ∀ s ∈ f.interrupts, s ∈ p.delivered ∧ (s = SIGINT ∨ s = SIGTERM)
  ret : p.main = .returned →
    p.exit = some .returned ∧ ∃ s ∈ p.delivered, s = SIGINT ∨ s = SIGTERM
  exit_ret : p.exit = some .returned → p.main = .returned
  progress : (∃ s ∈ p.delivered, s = SIGINT ∨ s = SIGTERM) →
    p.exit ≠ none ∨ ∃ f, p.main = .waiting f ∧ f.pc = .receive ∧ f.interrupts ≠ []

/-- Whether the event is one the goroutines produce after startup. -/
def Event.afterStartup {T : Collab} : Event T → Bool
  | .Infof _ => true
  | .Fatal _ => true
  | .Serve _ => true
  | .Returned _ _ => true
  | _ => false

/-- The facts about the two listener goroutines that hold in every state the
process reaches after a startup that ended with the events `tr` and the local
variables `config`, `fp` (the forward proxy) and `rp` (the reverse proxy). -/
structure WireInv {T : Collab} (config : Config T) (fp : T.ForwardProxy) (rp : T.ReverseProxy)
    (tr : List (Event T)) (p : Proc T) : Prop where
  forward : p.forward = .absent ∨ p.forward = .runnable ∨
    p.forward = .serving (forwardCall config fp) ∨
    ∃ err, p.forward = .failed (forwardCall config fp) err
  reverse : p.reverse = .absent ∨ p.reverse = .runnable ∨
    p.reverse = .serving (reverseCall config rp) ∨
    (∃ err, p.reverse = .failed (reverseCall config rp) err) ∨ p.reverse = .done
  serve : ∀ c, Event.Serve c ∈ p.trace → c = forwardCall config fp ∨ c = reverseCall config rp
  held : p.exit = none → ∀ c err, Event.Returned c err ∈ p.trace →
    p.forward = .failed c err ∨ p.reverse = .failed c err ∨ p.fatal = some err
  events : ∀ e ∈ p.trace, e ∈ tr ∨ e.afterStartup = true
  goForward : p.main = .goForward → p.forward = .absent ∧ p.reverse = .absent
  goReverse : p.main = .goReverse → p.reverse = .absent
  spawned : ∀ err, p.fatal = some err → p.reverse = .done

/-! ## Concrete collaborators, for the examples -/

/-- Collaborators whose opaque values are strings. -/
def Demo : Collab :=
  ⟨String, String, String, String, String, String⟩

/-- The names logrus gives its levels, as `log.ParseLevel` reads them. -/
def demoParseLevel (lvl : String) : Except String Level :=
  if lvl = "panic" then .ok .Panic
  else if lvl = "fatal" then .ok .Fatal
  else if lvl = "error" then .ok .Error
  else if lvl = "warn" ∨ lvl = "warning" then .ok .Warn
  else if lvl = "info" then .ok .Info
  else if lvl = "debug" then .ok .Debug
  else .error ("not a valid logrus Level: " ++ lvl)

/-- A configuration with the given reverse-proxy certificate and key files. -/
def demoConfig (crtFile keyFile : String) : Config Demo :=
  { SignerProxy := ⟨":8080", "ca.key", "ca.crt", "signer"⟩
    VerifierProxy := ⟨":8081", crtFile, keyFile, "verifier"⟩ }

/-- An environment in which the startup calls listed in `bad` return the error
`"boom"` and every other call succeeds; `config.Load` returns
`demoConfig crtFile keyFile`. -/
def demoEnv (crtFile keyFile : String) (bad : List Step) : Env Demo :=
  { Load := fun _ =>
      if bad.contains .Load then .error "boom" else .ok (demoConfig crtFile keyFile)
    ParseLevel := fun lvl =>
      if bad.contains .ParseLevel then .error "boom" else demoParseLevel lvl
    NewJWTSignerHandler := fun cfg =>
      if bad.contains .NewJWTSignerHandler then .error "boom" else .ok cfg
    NewJWTVerifierHandler := fun cfg =>
      if bad.contains .NewJWTVerifierHandler then .error "boom" else .ok cfg
    NewProxy := fun fwp _ _ =>
      if bad.contains .NewProxy then .error "boom" else .ok fwp
    NewReverseProxy := fun rvp =>
      if bad.contains .NewReverseProxy then .error "boom" else .ok rvp }

/-- The value a flag has on the command line `args` when it stood at `cur`
before: every setting of `name` replaces the value, so the last one wins, and
`cur` stays when `name` is not given. -/
def flagValue : List (String × String) → String → String → String
  | [], _, cur => cur
  | (n, v) :: rest, name, cur => flagValue rest name (if n = name then v else cur)

/-- The events of the startup sequence. -/
def Boot.trace {T : Collab} : Boot T → List (Event T)
  | .exited _ tr => tr
  | .ready tr _ _ _ => tr

/-- The facts that hold in every state of a call `waitForSignals(signals...)`. -/
structure WaitInv (signals : List Signal) (r : WaitRun) : Prop where
  signals_eq : r.frame.signals = signals
  channel : ∀ s ∈ r.frame.interrupts, s ∈ r.delivered ∧ relays signals s = true
  received : ∀ s ∈ r.received, s ∈ r.delivered ∧ relays signals s = true
  returned : r.frame.pc = .returned → r.received ≠ []

/-! ## The Token Engine behind the two handlers

The packages `jwt`, `jwt/keyserver/preshared`, `jwt/noncestorage/local` and
`jwt/privatekey/preshared` are imported by `main.go`; the definitions of
this section follow sections 3, 4.1 to 4.4 and 6 of the specification. -/

namespace TokenEngine

/-- Modelled from the spec: an Identity (section 3), an opaque string naming a
service. The type itself is declared in package `jwt`. -/
abbrev Identity := String

/-- Modelled from the spec: the claims of a Token (section 3): issuer,
audience, issue and expiry times (in seconds) and the token id, a nonce. The
claim set is built in package `jwt`. -/
structure Claims where
  issuer : Identity
  audience : Identity
  issuedAt : Int
  expiresAt : Int
  id : String
  deriving DecidableEq, Repr

/-- Modelled from the spec: the cryptography and the wire format the Token
Engine relies on (sections 4.1 and 6), which package `jwt` takes from its
libraries: key and signature types, the identifier `alg` of the signing
algorithm, signing (which may fail), signature checking under a named
algorithm, and the serialization of tokens. -/
structure Suite where
  PrivateKey : Type
  PublicKey : Type
  Signature : Type
  Wire : Type
  alg : String
  sign : PrivateKey → Claims → Option Signature
  check : String → PublicKey → Claims → Signature → Bool
  encode : String → Claims → Signature → Wire
  decode : Wire → Option (String × Claims × Signature)

/-- Modelled from the spec: the failures of Mint (section 4.1, package `jwt`). -/
inductive MintError where
  | KeyUnavailable
  | SigningFailure
  deriving DecidableEq, Repr

/-- Modelled from the spec: the failures of Verify, one for each of its six
steps (section 4.1, package `jwt`). -/
inductive VerifyError where
  | Malformed
  | UnknownIssuer
  | InvalidSignature
  | Expired
  | NotYetValid
  | AudienceMismatch
  | ReplayDetected
  deriving DecidableEq, Repr

/-- Modelled from the spec: the preshared Private Key Source (section 4.2,
package `jwt/privatekey/preshared`): `CurrentKey()` is `none` when no private
key is configured. -/
structure PrivateKeySource (S : Suite) where
  CurrentKey : Option S.PrivateKey

/-- Modelled from the spec: the preshared Key Resolver (section 4.3, package
`jwt/keyserver/preshared`): a fixed mapping from Identity to public key;
`Resolve` is `none` for an unknown issuer. -/
structure KeyResolver (S : Suite) where
  Resolve : Identity → Option S.PublicKey

/-- Modelled from the spec: a Nonce Record (section 3): a token id and the
deadline until which it is kept. Records are made in package
`jwt/noncestorage/local`. -/
structure NonceRecord where
  id : String
  deadline : Int
  deriving DecidableEq, Repr

/-- Modelled from the spec: the local Nonce Store (section 4.4, package
`jwt/noncestorage/local`): the records held in memory. -/
abbrev NonceStore := List NonceRecord

/-- Modelled from the spec: the Nonce Store of a process that has just started
(section 4.4, package `jwt/noncestorage/local`): no record. -/
def NonceStore.fresh : NonceStore := []

/-- Modelled from the spec: lazy purge of the local Nonce Store (section 4.4,
package `jwt/noncestorage/local`): a record is dropped once its deadline has
passed. -/
def NonceStore.purge (store : NonceStore) (now : Int) : NonceStore :=
  store.filter (fun r => decide (now ≤ r.deadline))

/-- Modelled from the spec: `CheckAndInsert(id, ttl)` of the local Nonce Store
(section 4.4, package `jwt/noncestorage/local`), at time `now`: `true` and a
new record kept for `ttl` when `id` is not present, `false` when it is; one
operation, so check and insert cannot be separated. -/
def NonceStore.CheckAndInsert (store : NonceStore) (now : Int) (id : String) (ttl : Int) :
    Bool × NonceStore :=
  if (store.purge now).any (fun r => r.id == id) then
    (false, store.purge now)
  else
    (true, ⟨id, now + ttl⟩ :: store.purge now)

/-- Modelled from the spec: `Mint(identity, audience)` (section 4.1, package
`jwt`), with the clock reading `now`, the fresh random `id` and the fixed
time to live `ttl` as arguments. -/
def Mint (S : Suite) (source : PrivateKeySource S) (ttl : Nat) (identity audience : Identity)
    (now : Int) (id : String) : Except MintError S.Wire :=
  match source.CurrentKey with
  | none => .error .KeyUnavailable
  | some key =>
    match S.sign key ⟨identity, audience, now, now + ttl, id⟩ with
    | none => .error .SigningFailure
    | some signature => .ok (S.encode S.alg ⟨identity, audience, now, now + ttl, id⟩ signature)

/-- Modelled from the spec: what a verifier is configured with (sections 4.1
and 4.3, package `jwt`): the Key Resolver, the allow-list of signature
algorithms and the clock skew it tolerates. -/
structure Verifier (S : Suite) where
  resolver : KeyResolver S
  allowed : List String
  skew : Nat

/-- Modelled from the spec: `Verify(token, expectedAudience, now)` (section
4.1, package `jwt`), its six steps in order; the Nonce Store is passed in and
returned. The nonce is recorded only when step 6 succeeds, until the token
expires. -/
def Verify (S : Suite) (v : Verifier S) (store : NonceStore) (token : S.Wire)
    (expectedAudience : Identity) (now : Int) : Except VerifyError Identity × NonceStore :=
  match S.decode token with
  | none => (.error .Malformed, store)
  | some (alg, claims, signature) =>
    match v.resolver.Resolve claims.issuer with
    | none => (.error .UnknownIssuer, store)
    | some key =>
      if !(v.allowed.contains alg && S.check alg key claims signature) then
        (.error .InvalidSignature, store)
      else if claims.expiresAt < now then
        (.error .Expired, store)
      else if now < claims.issuedAt - v.skew then
        (.error .NotYetValid, store)
      else if claims.audience ≠ expectedAudience then
        (.error .AudienceMismatch, store)
      else
        match store.CheckAndInsert now claims.id (claims.expiresAt - now) with
        | (true, store') => (.ok claims.issuer, store')
        | (false, store') => (.error .ReplayDetected, store')

/-- A toy suite for the examples: keys and signatures are numbers, a signature
is the key plus the length of the token id, and the wire format is the triple
itself. -/
def demoSuite : Suite :=
  { PrivateKey := Nat
    PublicKey := Nat
    Signature := Nat
    Wire := String × Claims × Nat
    alg := "RS256"
    sign := fun key claims => some (key + claims.id.length)
    check := fun alg key claims signature => alg == "RS256" && signature == key + claims.id.length
    encode := fun alg claims signature => (alg, claims, signature)
    decode := fun w => some w }

/-- A verifier for the examples: it knows the issuer "svc-a". -/
def demoVerifier : Verifier demoSuite :=
  { resolver := ⟨fun issuer => if issuer = "svc-a" then some (7 : Nat) else none⟩
    allowed := ["RS256"]
    skew := 5 }

end TokenEngine

/-- The packages `main.go` imports for their side effect only (lines 30-32),
each as the kind of backend and the backend. -/
def blankImports : List (String × String) :=
  [("keyserver", "preshared"), ("noncestorage", "local"), ("privatekey", "preshared")]

/-- The facts about listener errors and about the end of the process that hold
in every state the process reaches after startup: an error a goroutine holds
was returned by a listener call, and the process has ended only through
`log.Fatal` on such an error, because `main` returned, or by a signal. -/
structure EndInv {T : Collab} (p : Proc T) : Prop where
  forward_failed : ∀ c e, p.forward = .failed c e → Event.Returned c e ∈ p.trace
  reverse_failed : ∀ c e, p.reverse = .failed c e → Event.Returned c e ∈ p.trace
  spawned : ∀ e, p.fatal = some e → ∃ c, Event.Returned c e ∈ p.trace
  ended : ∀ x, p.exit = some x →
    (x = .fatal ∧ ∃ c e, Event.Returned c e ∈ p.trace ∧ p.trace.getLast? = some (.Fatal e)) ∨
    x = .returned ∨ ∃ s, x = .killed s ∧ s ∈ p.delivered

/-! ## Theorems -/

section Basics

variable {T : Collab}

theorem step_of_exit (config : Config T) (fp : T.ForwardProxy) (rp : T.ReverseProxy)
    (p : Proc T) (a : Action) (e : Exit) (h : p.exit = some e) :
    step config fp rp p a = p := by
  simp [step, h]

theorem run_of_exit (config : Config T) (fp : T.ForwardProxy) (rp : T.ReverseProxy)
    (sched : List Action) (p : Proc T) (e : Exit) (h : p.exit = some e) :
    run config fp rp p sched = p := by
  induction sched with
  | nil => rfl
  | cons a rest ih => simp [run, step_of_exit config fp rp p a e h, ih]

theorem run_append (config : Config T) (fp : T.ForwardProxy) (rp : T.ReverseProxy)
    (s₁ s₂ : List Action) (p : Proc T) :
    run config fp rp p (s₁ ++ s₂) = run config fp rp (run config fp rp p s₁) s₂ := by
  induction s₁ generalizing p with
  | nil => rfl
  | cons a rest ih => simp [run, ih]

theorem main_of_ready (env : Env T) (args : List (String × String)) (sched : List Action)
    (tr : List (Event T)) (config : Config T) (fp : T.ForwardProxy) (rp : T.ReverseProxy)
    (h : startup env args = .ready tr config fp rp) :
    main env args sched = run config fp rp (Proc.start tr) sched := by
  simp [main, h]

theorem main_of_exited (env : Env T) (args : List (String × String)) (sched : List Action)
    (tr : List (Event T)) (e : Exit) (h : startup env args = .exited e tr) :
    main env args sched = Proc.ended e tr := by
  simp [main, h]

theorem main_append (env : Env T) (args : List (String × String)) (s₁ s₂ : List Action)
    (tr : List (Event T)) (config : Config T) (fp : T.ForwardProxy) (rp : T.ReverseProxy)
    (h : startup env args = .ready tr config fp rp) :
    main env args (s₁ ++ s₂) = run config fp rp (main env args s₁) s₂ := by
  simp [main, h, run_append]

theorem startup_of_parse (env : Env T) (args : List (String × String)) (parsed : FlagSet)
    (h : CommandLine.Parse args = some parsed) :
    startup env args = startupFrom env (parsed.deref "config") (parsed.deref "log-level") := by
  simp [startup, h]

/-- The startup sequence reaches the `go` statements exactly when all six
calls succeed. -/
theorem startupFrom_ready_iff (env : Env T) (path lvl : String) :
    (∃ tr config fp rp, startupFrom env path lvl = .ready tr config fp rp) ↔
      env.succeeds path lvl := by
  constructor
  · rintro ⟨tr, config, fp, rp, h⟩
    unfold startupFrom at h
    unfold Env.succeeds
    split at h
    · simp at h
    · rename_i config₀ h₁
      split at h
      · simp at h
      · rename_i level h₂
        split at h
        · simp at h
        · rename_i fwp h₃
          split at h
          · simp at h
          · rename_i rvp h₄
            split at h
            · simp at h
            · rename_i fp₀ h₅
              split at h
              · simp at h
              · rename_i rp₀ h₆
                exact ⟨config₀, level, fwp, rvp, fp₀, rp₀, h₁, h₂, h₃, h₄, h₅, h₆⟩
  · rintro ⟨config, level, fwp, rvp, fp, rp, h₁, h₂, h₃, h₄, h₅, h₆⟩
    simp only [startupFrom, h₁, h₂, h₃, h₄, h₅, h₆]
    exact ⟨_, _, _, _, rfl⟩

end Basics

section Signals

variable {T : Collab}

theorem signalInv_start (tr : List (Event T)) : SignalInv (Proc.start tr) := by
  constructor <;> simp [Proc.start]

theorem waitFrame_step_returned (f : WaitFrame) :
    f.step.pc = .returned ↔ f.pc = .returned ∨ (f.pc = .receive ∧ f.interrupts ≠ []) := by
  rcases f with ⟨sigs, pc, ch⟩
  cases pc <;> cases ch <;> simp [WaitFrame.step]

theorem signalInv_stepMain (p : Proc T) (hx : p.exit = none) (h : SignalInv p) :
    SignalInv (stepMain p) := by
  obtain ⟨hf, hr, he, hp⟩ := h
  unfold stepMain
  split
  · rename_i hm
    constructor <;> simp_all
  · rename_i hm
    constructor <;> simp_all [waitForSignals]
  · rename_i f hm
    obtain ⟨h1, h2, h3, h4⟩ := hf f hm
    split
    · rename_i hret
      rw [waitFrame_step_returned] at hret
      rcases hret with hret | ⟨hpc, hne⟩
      · exact absurd hret h2
      · constructor
        · simp
        · intro _
          refine ⟨rfl, ?_⟩
          obtain ⟨s, rest, hs⟩ := List.exists_cons_of_ne_nil hne
          have := h4 s (by simp [hs])
          exact ⟨s, this.1, this.2⟩
        · simp
        · simp
    · rename_i hret
      rw [waitFrame_step_returned] at hret
      push_neg at hret
      constructor
      · intro g hg
        simp at hg
        subst hg
        rcases f with ⟨sigs, pc, ch⟩
        cases pc
        · simp_all [WaitFrame.step]
        · cases ch
          · simp_all [WaitFrame.step]
          · simp_all [WaitFrame.step]
        · simp_all
      · simp
      · simp [hx]
      · intro hd
        rcases hp hd with h | ⟨g, hg, hpc, hne⟩
        · exact absurd hx h
        · rw [hm] at hg
          cases hg
          exact absurd hne (by simpa using hret.2 hpc)
  · rename_i hm
    exact ⟨hf, hr, he, hp⟩

end Signals

section SignalSteps

variable {T : Collab}

theorem signalInv_of_same (p q : Proc T) (hx : p.exit = none) (h : SignalInv p)
    (hm : q.main = p.main) (hd : q.delivered = p.delivered)
    (he : q.exit = none ∨ q.exit = some .fatal) : SignalInv q := by
  obtain ⟨hf, hr, hr', hp⟩ := h
  constructor
  · intro f hq
    rw [hm] at hq
    rw [hd]
    exact hf f hq
  · intro hq
    rw [hm] at hq
    have := (hr hq).1
    rw [hx] at this
    exact absurd this (by simp)
  · intro hq
    rcases he with he | he <;> rw [he] at hq <;> simp at hq
  · intro hq
    rw [hd] at hq
    rcases hp hq with h | h
    · exact absurd hx h
    · right
      rw [hm]
      exact h

theorem signalInv_stepForward (config : Config T) (fp : T.ForwardProxy) (p : Proc T)
    (hx : p.exit = none) (h : SignalInv p) : SignalInv (stepForward config fp p) := by
  apply signalInv_of_same p _ hx h <;> unfold stepForward <;> split <;> simp [hx]

theorem signalInv_stepReverse (config : Config T) (rp : T.ReverseProxy) (p : Proc T)
    (hx : p.exit = none) (h : SignalInv p) : SignalInv (stepReverse config rp p) := by
  apply signalInv_of_same p _ hx h <;> unfold stepReverse <;> split <;> simp [hx]

theorem signalInv_stepFatal (p : Proc T) (hx : p.exit = none) (h : SignalInv p) :
    SignalInv (stepFatal p) := by
  apply signalInv_of_same p _ hx h <;> unfold stepFatal <;> split <;> simp [hx]

theorem signalInv_stepFail (r : Role) (err : String) (p : Proc T) (hx : p.exit = none)
    (h : SignalInv p) : SignalInv (stepFail r err p) := by
  apply signalInv_of_same p _ hx h <;> unfold stepFail <;> split <;> split <;> simp [hx]

theorem signalInv_stepSignal (s : Signal) (p : Proc T) (hx : p.exit = none) (h : SignalInv p) :
    SignalInv (stepSignal s p) := by
  obtain ⟨hf, hr, hr', hp⟩ := h
  unfold stepSignal
  split
  · rename_i f hm
    obtain ⟨h1, h2, h3, h4⟩ := hf f hm
    split
    · rename_i hc
      have hc' : f.pc ≠ .notify ∧ (s = SIGINT ∨ s = SIGTERM) := by
        simpa [WaitFrame.catches, relays, h1] using hc
      have hpc : f.pc = .receive := by
        cases hq : f.pc
        · exact absurd hq hc'.1
        · rfl
        · exact absurd hq h2
      constructor
      · intro g hg
        simp at hg
        subst hg
        unfold WaitFrame.signal
        split
        · refine ⟨h1, h2, ?_, ?_⟩
          · intro hn
            exact absurd hn hc'.1
          · intro t ht
            simp at ht
            rcases ht with ht | ht
            · exact ⟨by simp [(h4 t ht).1], (h4 t ht).2⟩
            · subst ht
              exact ⟨by simp, hc'.2⟩
        · refine ⟨h1, h2, h3, ?_⟩
          intro t ht
          exact ⟨by simp [(h4 t ht).1], (h4 t ht).2⟩
      · simp
      · simp [hx]
      · intro _
        right
        refine ⟨_, rfl, ?_, ?_⟩
        · unfold WaitFrame.signal
          split <;> exact hpc
        · unfold WaitFrame.signal
          split
          · simp
          · rename_i hn
            simp [hc] at hn
            intro h0
            simp [h0] at hn
    · split
      · constructor <;> simp_all
      · rename_i hc hd
        constructor
        · intro g hg
          simp at hg
          rw [hm] at hg
          cases hg
          refine ⟨h1, h2, h3, ?_⟩
          intro t ht
          exact ⟨by simp [(h4 t ht).1], (h4 t ht).2⟩
        · simp [hm]
        · simp [hx]
        · intro hq
          simp at hq
          obtain ⟨t, ht, ht'⟩ := hq
          rcases ht with ht | ht
          · have := hp ⟨t, ht, ht'⟩
            simpa [hx] using this
          · subst ht
            rcases ht' with ht' | ht' <;> subst ht' <;> simp [defaultExits] at hd
  · rename_i hm
    split
    · constructor <;> simp_all
    · rename_i hd
      constructor
      · intro g hg
        simp at hg
        exact absurd hg (hm g)
      · intro hq
        simp at hq
        have := (hr hq).1
        simp [hx] at this
      · simp [hx]
      · intro hq
        simp at hq
        obtain ⟨t, ht, ht'⟩ := hq
        rcases ht with ht | ht
        · have := hp ⟨t, ht, ht'⟩
          simpa [hx] using this
        · subst ht
          rcases ht' with ht' | ht' <;> subst ht' <;> simp [defaultExits] at hd

theorem signalInv_step (config : Config T) (fp : T.ForwardProxy) (rp : T.ReverseProxy)
    (p : Proc T) (a : Action) (h : SignalInv p) : SignalInv (step config fp rp p a) := by
  unfold step
  split
  · exact h
  · rename_i hx
    cases a with
    | main => exact signalInv_stepMain p hx h
    | forward => exact signalInv_stepForward config fp p hx h
    | reverse => exact signalInv_stepReverse config rp p hx h
    | fatal => exact signalInv_stepFatal p hx h
    | fail r err => exact signalInv_stepFail r err p hx h
    | signal s => exact signalInv_stepSignal s p hx h

theorem signalInv_run (config : Config T) (fp : T.ForwardProxy) (rp : T.ReverseProxy)
    (sched : List Action) (p : Proc T) (h : SignalInv p) :
    SignalInv (run config fp rp p sched) := by
  induction sched generalizing p with
  | nil => exact h
  | cons a rest ih => exact ih _ (signalInv_step config fp rp p a h)

end SignalSteps

section Wiring

variable {T : Collab}

theorem wireInv_start (config : Config T) (fp : T.ForwardProxy) (rp : T.ReverseProxy)
    (tr : List (Event T)) (htr : ∀ e ∈ tr, e.afterStartup = false) :
    WireInv config fp rp tr (Proc.start tr) := by
  constructor
  · simp [Proc.start]
  · simp [Proc.start]
  · intro c hc
    have := htr _ hc
    simp [Event.afterStartup] at this
  · intro _ c err hc
    have := htr _ hc
    simp [Event.afterStartup] at this
  · intro e he
    exact Or.inl he
  · simp [Proc.start]
  · simp [Proc.start]
  · simp [Proc.start]

theorem wireInv_stepMain (config : Config T) (fp : T.ForwardProxy) (rp : T.ReverseProxy)
    (tr : List (Event T)) (p : Proc T) (hx : p.exit = none) (h : WireInv config fp rp tr p) :
    WireInv config fp rp tr (stepMain p) := by
  obtain ⟨hf, hr, hs, hh, he, hgf, hgr, hsp⟩ := h
  unfold stepMain
  split
  · rename_i hm
    have hfa := (hgf hm).1
    constructor
    · simp
    · exact hr
    · exact hs
    · intro _ c err hc
      have := hh hx c err hc
      simp [hfa] at this
      exact Or.inr this
    · exact he
    · simp
    · intro _
      exact (hgf hm).2
    · exact hsp
  · rename_i hm
    have hra := hgr hm
    constructor
    · exact hf
    · simp
    · exact hs
    · intro _ c err hc
      have := hh hx c err hc
      simp [hra] at this
      rcases this with h | h
      · exact Or.inl h
      · exact Or.inr (Or.inr h)
    · exact he
    · simp
    · simp
    · intro err hq
      have := hsp err hq
      simp [hra] at this
  · split
    · constructor
      · exact hf
      · exact hr
      · exact hs
      · intro hq
        simp at hq
      · exact he
      · simp
      · simp
      · exact hsp
    · constructor
      · exact hf
      · exact hr
      · exact hs
      · exact hh
      · exact he
      · simp
      · simp
      · exact hsp
  · exact ⟨hf, hr, hs, hh, he, hgf, hgr, hsp⟩

theorem wireInv_stepForward (config : Config T) (fp : T.ForwardProxy) (rp : T.ReverseProxy)
    (tr : List (Event T)) (p : Proc T) (h : WireInv config fp rp tr p) :
    WireInv config fp rp tr (stepForward config fp p) := by
  obtain ⟨hf, hr, hs, hh, he, hgf, hgr, hsp⟩ := h
  unfold stepForward
  split
  · rename_i hm
    constructor
    · simp
    · exact hr
    · intro c hc
      simp at hc
      rcases hc with hc | hc
      · exact hs c hc
      · exact Or.inl hc
    · intro hx c err hc
      simp at hc
      have := hh hx c err hc
      simp [hm] at this
      exact Or.inr this
    · intro e hq
      simp at hq
      rcases hq with hq | hq | hq
      · exact he e hq
      · subst hq
        exact Or.inr rfl
      · subst hq
        exact Or.inr rfl
    · intro hq
      have := (hgf hq).1
      simp [hm] at this
    · exact hgr
    · exact hsp
  · rename_i hm
    constructor
    · exact hf
    · exact hr
    · intro c hc
      simp at hc
      exact hs c hc
    · intro hx
      simp at hx
    · intro e hq
      simp at hq
      rcases hq with hq | hq
      · exact he e hq
      · subst hq
        exact Or.inr rfl
    · exact hgf
    · exact hgr
    · exact hsp
  · exact ⟨hf, hr, hs, hh, he, hgf, hgr, hsp⟩

theorem wireInv_stepReverse (config : Config T) (fp : T.ForwardProxy) (rp : T.ReverseProxy)
    (tr : List (Event T)) (p : Proc T) (h : WireInv config fp rp tr p) :
    WireInv config fp rp tr (stepReverse config rp p) := by
  obtain ⟨hf, hr, hs, hh, he, hgf, hgr, hsp⟩ := h
  unfold stepReverse
  split
  · rename_i hm
    constructor
    · exact hf
    · simp
    · intro c hc
      simp at hc
      rcases hc with hc | hc
      · exact hs c hc
      · exact Or.inr hc
    · intro hx c err hc
      simp at hc
      have := hh hx c err hc
      simp [hm] at this
      rcases this with h | h
      · exact Or.inl h
      · exact Or.inr (Or.inr h)
    · intro e hq
      simp at hq
      rcases hq with hq | hq | hq
      · exact he e hq
      · subst hq
        exact Or.inr rfl
      · subst hq
        exact Or.inr rfl
    · intro hq
      have := (hgf hq).2
      simp [hm] at this
    · intro hq
      have := hgr hq
      simp [hm] at this
    · intro err hq
      have := hsp err hq
      simp [hm] at this
  · rename_i hm
    constructor
    · exact hf
    · exact hr
    · intro c hc
      simp at hc
      exact hs c hc
    · intro hx
      simp at hx
    · intro e hq
      simp at hq
      rcases hq with hq | hq
      · exact he e hq
      · subst hq
        exact Or.inr rfl
    · exact hgf
    · exact hgr
    · intro err hq
      have := hsp err hq
      simp [hm] at this
  · rename_i addr handler err hm
    constructor
    · exact hf
    · simp
    · exact hs
    · intro hx c e hc
      have := hh hx c e hc
      simp [hm] at this
      rcases this with h | h | h
      · exact Or.inl h
      · exact Or.inr (Or.inr (by simp [h.2]))
      · have := hsp e h
        simp [hm] at this
    · exact he
    · intro hq
      have := (hgf hq).2
      simp [hm] at this
    · intro hq
      have := hgr hq
      simp [hm] at this
    · simp
  · exact ⟨hf, hr, hs, hh, he, hgf, hgr, hsp⟩

end Wiring

section WiringSteps

variable {T : Collab}

theorem wireInv_stepFatal (config : Config T) (fp : T.ForwardProxy) (rp : T.ReverseProxy)
    (tr : List (Event T)) (p : Proc T) (h : WireInv config fp rp tr p) :
    WireInv config fp rp tr (stepFatal p) := by
  obtain ⟨hf, hr, hs, hh, he, hgf, hgr, hsp⟩ := h
  unfold stepFatal
  split
  · constructor
    · exact hf
    · exact hr
    · intro c hc
      simp at hc
      exact hs c hc
    · intro hx
      simp at hx
    · intro e hq
      simp at hq
      rcases hq with hq | hq
      · exact he e hq
      · subst hq
        exact Or.inr rfl
    · exact hgf
    · exact hgr
    · exact hsp
  · exact ⟨hf, hr, hs, hh, he, hgf, hgr, hsp⟩

theorem wireInv_stepFail (config : Config T) (fp : T.ForwardProxy) (rp : T.ReverseProxy)
    (tr : List (Event T)) (r : Role) (err : String) (p : Proc T)
    (h : WireInv config fp rp tr p) : WireInv config fp rp tr (stepFail r err p) := by
  obtain ⟨hf, hr, hs, hh, he, hgf, hgr, hsp⟩ := h
  unfold stepFail
  split
  · split
    · rename_i c hm
      have hc : c = forwardCall config fp := by
        simpa [hm] using hf
      constructor
      · exact Or.inr (Or.inr (Or.inr ⟨err, by simp [hc]⟩))
      · exact hr
      · intro d hd
        simp at hd
        exact hs d hd
      · intro hx d e hd
        simp at hd
        rcases hd with hd | hd
        · have := hh hx d e hd
          simp [hm] at this
          exact Or.inr this
        · left
          simp [hd.1, hd.2]
      · intro e hq
        simp at hq
        rcases hq with hq | hq
        · exact he e hq
        · subst hq
          exact Or.inr rfl
      · intro hq
        have := (hgf hq).1
        simp [hm] at this
      · exact hgr
      · exact hsp
    · exact ⟨hf, hr, hs, hh, he, hgf, hgr, hsp⟩
  · split
    · rename_i c hm
      have hc : c = reverseCall config rp := by
        simpa [hm] using hr
      constructor
      · exact hf
      · exact Or.inr (Or.inr (Or.inr (Or.inl ⟨err, by simp [hc]⟩)))
      · intro d hd
        simp at hd
        exact hs d hd
      · intro hx d e hd
        simp at hd
        rcases hd with hd | hd
        · have := hh hx d e hd
          simp [hm] at this
          rcases this with h | h
          · exact Or.inl h
          · exact Or.inr (Or.inr h)
        · right
          left
          simp [hd.1, hd.2]
      · intro e hq
        simp at hq
        rcases hq with hq | hq
        · exact he e hq
        · subst hq
          exact Or.inr rfl
      · intro hq
        have := (hgf hq).2
        simp [hm] at this
      · intro hq
        have := hgr hq
        simp [hm] at this
      · intro e hq
        have := hsp e hq
        simp [hm] at this
    · exact ⟨hf, hr, hs, hh, he, hgf, hgr, hsp⟩

theorem wireInv_stepSignal (config : Config T) (fp : T.ForwardProxy) (rp : T.ReverseProxy)
    (tr : List (Event T)) (s : Signal) (p : Proc T) (h : WireInv config fp rp tr p) :
    WireInv config fp rp tr (stepSignal s p) := by
  obtain ⟨hf, hr, hs, hh, he, hgf, hgr, hsp⟩ := h
  unfold stepSignal
  split
  · rename_i f hm
    split
    · exact ⟨hf, hr, hs, hh, he, by simp, by simp, hsp⟩
    · split
      · exact ⟨hf, hr, hs, by simp, he, hgf, hgr, hsp⟩
      · exact ⟨hf, hr, hs, hh, he, hgf, hgr, hsp⟩
  · split
    · exact ⟨hf, hr, hs, by simp, he, hgf, hgr, hsp⟩
    · exact ⟨hf, hr, hs, hh, he, hgf, hgr, hsp⟩

theorem wireInv_step (config : Config T) (fp : T.ForwardProxy) (rp : T.ReverseProxy)
    (tr : List (Event T)) (p : Proc T) (a : Action) (h : WireInv config fp rp tr p) :
    WireInv config fp rp tr (step config fp rp p a) := by
  unfold step
  split
  · exact h
  · rename_i hx
    cases a with
    | main => exact wireInv_stepMain config fp rp tr p hx h
    | forward => exact wireInv_stepForward config fp rp tr p h
    | reverse => exact wireInv_stepReverse config fp rp tr p h
    | fatal => exact wireInv_stepFatal config fp rp tr p h
    | fail r err => exact wireInv_stepFail config fp rp tr r err p h
    | signal s => exact wireInv_stepSignal config fp rp tr s p h

theorem wireInv_run (config : Config T) (fp : T.ForwardProxy) (rp : T.ReverseProxy)
    (tr : List (Event T)) (sched : List Action) (p : Proc T) (h : WireInv config fp rp tr p) :
    WireInv config fp rp tr (run config fp rp p sched) := by
  induction sched generalizing p with
  | nil => exact h
  | cons a rest ih => exact ih _ (wireInv_step config fp rp tr p a h)

/-- The events of a startup that reaches the `go` statements are the calls of
the six steps and of `log.SetLevel`, in source order. -/
theorem startupFrom_ready_trace (env : Env T) (path lvl : String) (tr : List (Event T))
    (config : Config T) (fp : T.ForwardProxy) (rp : T.ReverseProxy)
    (h : startupFrom env path lvl = .ready tr config fp rp) :
    ∃ level fwp rvp,
      env.Load path = .ok config ∧ env.ParseLevel lvl = .ok level ∧
      env.NewJWTSignerHandler config.SignerProxy.Signer = .ok fwp ∧
      env.NewJWTVerifierHandler config.VerifierProxy.Verifier = .ok rvp ∧
      env.NewProxy fwp config.SignerProxy.CAKeyFile config.SignerProxy.CACrtFile = .ok fp ∧
      env.NewReverseProxy rvp = .ok rp ∧
      tr = [.Load path, .ParseLevel lvl, .SetLevel level,
        .NewJWTSignerHandler config.SignerProxy.Signer,
        .NewJWTVerifierHandler config.VerifierProxy.Verifier,
        .NewProxy fwp config.SignerProxy.CAKeyFile config.SignerProxy.CACrtFile,
        .NewReverseProxy rvp] := by
  unfold startupFrom at h
  split at h
  · simp at h
  · rename_i config₀ h₁
    split at h
    · simp at h
    · rename_i level h₂
      split at h
      · simp at h
      · rename_i fwp h₃
        split at h
        · simp at h
        · rename_i rvp h₄
          split at h
          · simp at h
          · rename_i fp₀ h₅
            split at h
            · simp at h
            · rename_i rp₀ h₆
              simp only [Boot.ready.injEq] at h
              obtain ⟨e₁, e₂, e₃, e₄⟩ := h
              subst e₂ e₃ e₄
              exact ⟨level, fwp, rvp, h₁, h₂, h₃, h₄, h₅, h₆, by simp [← e₁]⟩

theorem startup_ready_trace (env : Env T) (args : List (String × String)) (tr : List (Event T))
    (config : Config T) (fp : T.ForwardProxy) (rp : T.ReverseProxy)
    (h : startup env args = .ready tr config fp rp) : ∀ e ∈ tr, e.afterStartup = false := by
  unfold startup at h
  split at h
  · simp at h
  · obtain ⟨level, fwp, rvp, -, -, -, -, -, -, htr⟩ := startupFrom_ready_trace env _ _ tr config fp rp h
    subst htr
    intro e he
    simp at he
    rcases he with he | he | he | he | he | he | he <;> subst he <;> rfl

theorem main_wireInv (env : Env T) (args : List (String × String)) (sched : List Action)
    (tr : List (Event T)) (config : Config T) (fp : T.ForwardProxy) (rp : T.ReverseProxy)
    (h : startup env args = .ready tr config fp rp) :
    WireInv config fp rp tr (main env args sched) := by
  rw [main_of_ready env args sched tr config fp rp h]
  exact wireInv_run config fp rp tr sched _
    (wireInv_start config fp rp tr (startup_ready_trace env args tr config fp rp h))

/-- The two outcomes of the startup sequence: either no call fails and the `go`
statements are reached, or the earliest failing call `k` ends the process
through its `log.Fatalf`, after the calls up to `k` and no other. The
diagnostic is written unless `k` comes after `log.SetLevel` and the level set
is `Panic`. -/
theorem startupFrom_cases (env : Env T) (path lvl : String) :
    (env.firstFailure path lvl = none ∧
      ∃ tr config fp rp, startupFrom env path lvl = .ready tr config fp rp) ∨
    (∃ k err tr, env.firstFailure path lvl = some (k, err) ∧
      startupFrom env path lvl = .exited .fatal tr ∧
      tr.filterMap Event.step? = Step.all.take (k.index + 1) ∧
      tr.getLast? = some (.Fatalf (k.diagnostic ++ err)) ∧
      (∀ e ∈ tr, e.afterStartup = false) ∧
      tr.any Event.isSetLevel = decide (2 ≤ k.index) ∧
      (Event.Usage ∈ tr ↔ k = .Load) ∧
      (2 ≤ k.index → env.ParseLevel lvl = .ok .Panic → logEntries .Info tr = []) ∧
      ((2 ≤ k.index → env.ParseLevel lvl ≠ .ok .Panic) →
        logEntries .Info tr = [(.Fatal, k.diagnostic ++ err)])) := by
  cases h₁ : env.Load path with
  | error err =>
    simp only [Env.firstFailure, startupFrom, h₁]
    right
    refine ⟨.Load, err, _, rfl, rfl, ?_⟩
    simp [Event.step?, Step.all, Step.index, Step.diagnostic, Event.afterStartup,
      Event.isSetLevel, logEntries, Level.writes, Level.rank]
  | ok config =>
    cases h₂ : env.ParseLevel lvl with
    | error err =>
      simp only [Env.firstFailure, startupFrom, h₁, h₂]
      right
      refine ⟨.ParseLevel, err, _, rfl, rfl, ?_⟩
      simp [Event.step?, Step.all, Step.index, Step.diagnostic, Event.afterStartup,
        Event.isSetLevel, logEntries, Level.writes, Level.rank]
    | ok level =>
      cases h₃ : env.NewJWTSignerHandler config.SignerProxy.Signer with
      | error err =>
        simp only [Env.firstFailure, startupFrom, h₁, h₂, h₃]
        right
        refine ⟨.NewJWTSignerHandler, err, _, rfl, rfl, ?_⟩
        cases level <;> simp [Event.step?, Step.all, Step.index, Step.diagnostic, Event.afterStartup,
          Event.isSetLevel, logEntries, Level.writes, Level.rank]
      | ok fwp =>
        cases h₄ : env.NewJWTVerifierHandler config.VerifierProxy.Verifier with
        | error err =>
          simp only [Env.firstFailure, startupFrom, h₁, h₂, h₃, h₄]
          right
          refine ⟨.NewJWTVerifierHandler, err, _, rfl, rfl, ?_⟩
          cases level <;> simp [Event.step?, Step.all, Step.index, Step.diagnostic, Event.afterStartup,
            Event.isSetLevel, logEntries, Level.writes, Level.rank]
        | ok rvp =>
          cases h₅ : env.NewProxy fwp config.SignerProxy.CAKeyFile config.SignerProxy.CACrtFile with
          | error err =>
            simp only [Env.firstFailure, startupFrom, h₁, h₂, h₃, h₄, h₅]
            right
            refine ⟨.NewProxy, err, _, rfl, rfl, ?_⟩
            cases level <;> simp [Event.step?, Step.all, Step.index, Step.diagnostic, Event.afterStartup,
              Event.isSetLevel, logEntries, Level.writes, Level.rank]
          | ok fp =>
            cases h₆ : env.NewReverseProxy rvp with
            | error err =>
              simp only [Env.firstFailure, startupFrom, h₁, h₂, h₃, h₄, h₅, h₆]
              right
              refine ⟨.NewReverseProxy, err, _, rfl, rfl, ?_⟩
              cases level <;> simp [Event.step?, Step.all, Step.index, Step.diagnostic, Event.afterStartup,
                Event.isSetLevel, logEntries, Level.writes, Level.rank]
            | ok rp =>
              simp only [Env.firstFailure, startupFrom, h₁, h₂, h₃, h₄, h₅, h₆]
              left
              exact ⟨trivial, _, _, _, _, rfl⟩

theorem startup_exited (env : Env T) (args : List (String × String)) (e : Exit)
    (tr : List (Event T)) (h : startup env args = .exited e tr) : e = .usage ∨ e = .fatal := by
  unfold startup at h
  split at h
  · simp at h
    exact Or.inl h.1.symm
  · rename_i parsed _
    rcases startupFrom_cases env (parsed.deref "config") (parsed.deref "log-level") with
      ⟨-, tr', c, fp, rp, h'⟩ | ⟨k, err, tr', -, h', -⟩
    · rw [h'] at h
      simp at h
    · rw [h'] at h
      simp at h
      exact Or.inr h.1.symm

theorem main_signalInv (env : Env T) (args : List (String × String)) (sched : List Action) :
    SignalInv (main env args sched) := by
  unfold main
  split
  · rename_i e tr h
    constructor <;> simp [Proc.ended]
    rcases startup_exited env args e tr h with h | h <;> simp [h]
  · exact signalInv_run _ _ _ sched _ (signalInv_start _)

end WiringSteps

/-! ## The reverse listener: TLS or plaintext -/

section ReverseListener

variable {T : Collab}

/-- C1. For every configuration that startup loaded, the reverse proxy is
served with `http.ListenAndServeTLS`, on `VerifierProxy.CrtFile` and
`VerifierProxy.KeyFile`, exactly when both are non-empty; in every other case
it is served with `http.ListenAndServe`. Either way the listener is started
and the process has not ended: the plaintext case is no startup error. -/
theorem reverse_listener_tls_iff_both_files (env : Env T) (args : List (String × String))
    (tr : List (Event T)) (config : Config T) (fp : T.ForwardProxy) (rp : T.ReverseProxy)
    (h : startup env args = .ready tr config fp rp) :
    (∃ c, (main env args [.main, .main, .reverse]).reverse = .serving c ∧
      (main env args [.main, .main, .reverse]).exit = none) ∧
    ∀ sched c, (main env args sched).reverse = .serving c →
      (c.isTLS = true ↔
        config.VerifierProxy.CrtFile ≠ "" ∧ config.VerifierProxy.KeyFile ≠ "") ∧
      (c.isTLS = true →
        c = .ListenAndServeTLS config.VerifierProxy.ListenAddr config.VerifierProxy.CrtFile
          config.VerifierProxy.KeyFile (.inr rp)) ∧
      (c.isTLS = false → c = .ListenAndServe config.VerifierProxy.ListenAddr (.inr rp)) := by
  constructor
  · refine ⟨reverseCall config rp, ?_, ?_⟩ <;>
      simp [main_of_ready env args _ tr config fp rp h, run, step, Proc.start, stepMain,
        stepReverse]
  · intro sched c hc
    have hw := (main_wireInv env args sched tr config fp rp h).reverse
    rw [hc] at hw
    have hcall : c = reverseCall config rp := by simpa using hw
    subst hcall
    unfold reverseCall
    by_cases hb : config.VerifierProxy.CrtFile ≠ "" ∧ config.VerifierProxy.KeyFile ≠ ""
    · have : (config.VerifierProxy.CrtFile != "" && config.VerifierProxy.KeyFile != "") = true := by
        simpa using hb
      simp [this, Call.isTLS, hb]
    · have : (config.VerifierProxy.CrtFile != "" && config.VerifierProxy.KeyFile != "") = false := by
        simpa using hb
      simp only [this]
      simp [Call.isTLS, hb]

theorem reverse_listener_tls_witness :
    startup (demoEnv "server.crt" "" []) [] =
        .ready [.Load "", .ParseLevel "info", .SetLevel .Info, .NewJWTSignerHandler "signer",
          .NewJWTVerifierHandler "verifier", .NewProxy "signer" "ca.key" "ca.crt",
          .NewReverseProxy "verifier"] (demoConfig "server.crt" "") "signer" "verifier" ∧
      ∃ c, (main (demoEnv "server.crt" "" []) [] [.main, .main, .reverse]).reverse = .serving c ∧
        (main (demoEnv "server.crt" "" []) [] [.main, .main, .reverse]).exit = none :=
  ⟨rfl, (reverse_listener_tls_iff_both_files (demoEnv "server.crt" "" []) [] _ _ _ _ rfl).1⟩

end ReverseListener

/-! ## Startup: all or nothing -/

section Startup

variable {T : Collab}

theorem firstFailure_none_iff (env : Env T) (path lvl : String) :
    env.firstFailure path lvl = none ↔ env.succeeds path lvl := by
  rw [← startupFrom_ready_iff]
  rcases startupFrom_cases env path lvl with ⟨h, hr⟩ | ⟨k, err, tr, h, hs, -⟩
  · simp [h, hr]
  · simp [h, hs]

/-- The process when a startup call fails: it has ended through `log.Fatalf`
with the diagnostic of the earliest failing call, whatever the schedule, and
no goroutine was made. -/
theorem main_of_firstFailure (env : Env T) (args : List (String × String)) (parsed : FlagSet)
    (hp : CommandLine.Parse args = some parsed) (k : Step) (err : String)
    (hk : env.firstFailure (parsed.deref "config") (parsed.deref "log-level") = some (k, err))
    (sched : List Action) :
    ∃ tr, main env args sched = Proc.ended .fatal tr ∧
      tr.filterMap Event.step? = Step.all.take (k.index + 1) ∧
      tr.getLast? = some (.Fatalf (k.diagnostic ++ err)) ∧
      (∀ e ∈ tr, e.afterStartup = false) ∧
      tr.any Event.isSetLevel = decide (2 ≤ k.index) ∧
      (Event.Usage ∈ tr ↔ k = .Load) ∧
      (2 ≤ k.index → env.ParseLevel (parsed.deref "log-level") = .ok .Panic →
        logEntries .Info tr = []) ∧
      ((2 ≤ k.index → env.ParseLevel (parsed.deref "log-level") ≠ .ok .Panic) →
        logEntries .Info tr = [(.Fatal, k.diagnostic ++ err)]) := by
  rcases startupFrom_cases env (parsed.deref "config") (parsed.deref "log-level") with
    ⟨h, -⟩ | ⟨k', err', tr, h, hs, hrest⟩
  · rw [h] at hk
    simp at hk
  · rw [h] at hk
    simp only [Option.some.injEq, Prod.mk.injEq] at hk
    obtain ⟨rfl, rfl⟩ := hk
    refine ⟨tr, ?_, hrest⟩
    rw [main_of_exited env args sched tr .fatal]
    rw [startup_of_parse env args parsed hp, hs]

/-- The process after a startup in which every call succeeded: both listeners
can be brought up, one after the other in either order, and the process runs. -/
theorem main_both_serving (env : Env T) (args : List (String × String))
    (tr : List (Event T)) (config : Config T) (fp : T.ForwardProxy) (rp : T.ReverseProxy)
    (h : startup env args = .ready tr config fp rp) :
    (main env args [.main, .main, .forward, .reverse]).forward =
        .serving (forwardCall config fp) ∧
      (main env args [.main, .main, .forward, .reverse]).reverse =
        .serving (reverseCall config rp) ∧
      (main env args [.main, .main, .forward, .reverse]).exit = none := by
  simp [main_of_ready env args _ tr config fp rp h, run, step, Proc.start, stepMain,
    stepReverse, stepForward]

/-- C2, as stated, fails in "with a diagnostic". The command line sets the
log level to "panic" and `proxy.NewProxy` fails: `main` has run
`log.SetLevel` with the level `Panic` before, so its call of `log.Fatalf`
ends the process and logrus writes nothing. -/
theorem startup_diagnostic_counterexample :
    CommandLine.Parse [("log-level", "panic")] =
        some ⟨[⟨"config", "Load configuration from the specified yaml file.", "", ""⟩,
          ⟨"log-level", "Define the logging level.", "panic", "info"⟩]⟩ ∧
      (demoEnv "" "" [.NewProxy]).ParseLevel "panic" = .ok .Panic ∧
      (demoEnv "" "" [.NewProxy]).NewProxy "signer" "ca.key" "ca.crt" = .error "boom" ∧
      (main (demoEnv "" "" [.NewProxy]) [("log-level", "panic")] []).exit = some .fatal ∧
      (main (demoEnv "" "" [.NewProxy]) [("log-level", "panic")] []).trace =
        [.Load "", .ParseLevel "panic", .SetLevel .Panic, .NewJWTSignerHandler "signer",
          .NewJWTVerifierHandler "verifier", .NewProxy "signer" "ca.key" "ca.crt",
          .Fatalf "Failed to create forward proxy: boom"] ∧
      (main (demoEnv "" "" [.NewProxy]) [("log-level", "panic")] []).written = [] :=
  ⟨rfl, rfl, rfl, rfl, rfl, rfl⟩

/-- C2, amended. Startup is all or nothing. On a command line that parses,
`main` reaches the `go` statements that start the two listeners exactly when
all six startup calls succeed, and then both listeners are started. If a call
returns an error, then under every schedule the process has ended through the
`log.Fatalf` of the earliest failing call (exit status 1), with the
diagnostic of that call as argument; neither goroutine exists and no listener
call was made. The diagnostic is the one entry logrus writes, except when the
failing call comes after `log.SetLevel` and the level set from the command
line is `Panic`: then nothing is written. In particular all this is so when
`proxy.NewProxy` fails on the CA key and certificate files. -/
theorem startup_all_or_nothing (env : Env T) (args : List (String × String)) (parsed : FlagSet)
    (hp : CommandLine.Parse args = some parsed) :
    ((∃ tr config fp rp, startup env args = .ready tr config fp rp) ↔
      env.succeeds (parsed.deref "config") (parsed.deref "log-level")) ∧
    (∀ tr config fp rp, startup env args = .ready tr config fp rp →
      (main env args [.main, .main, .forward, .reverse]).forward.isServing = true ∧
      (main env args [.main, .main, .forward, .reverse]).reverse.isServing = true ∧
      (main env args [.main, .main, .forward, .reverse]).exit = none) ∧
    (¬ env.succeeds (parsed.deref "config") (parsed.deref "log-level") →
      ∃ k err, env.firstFailure (parsed.deref "config") (parsed.deref "log-level") = some (k, err) ∧
        ∀ sched,
          (main env args sched).exit = some .fatal ∧ Exit.fatal.status = some 1 ∧
          (main env args sched).trace.getLast? = some (.Fatalf (k.diagnostic ++ err)) ∧
          (main env args sched).forward = .absent ∧ (main env args sched).reverse = .absent ∧
          (main env args sched).fatal = none ∧
          (∀ c, Event.Serve c ∉ (main env args sched).trace) ∧
          (2 ≤ k.index → env.ParseLevel (parsed.deref "log-level") = .ok .Panic →
            (main env args sched).written = []) ∧
          ((2 ≤ k.index → env.ParseLevel (parsed.deref "log-level") ≠ .ok .Panic) →
            (main env args sched).written = [(.Fatal, k.diagnostic ++ err)])) ∧
    (∀ config level fwp rvp err,
      env.Load (parsed.deref "config") = .ok config →
      env.ParseLevel (parsed.deref "log-level") = .ok level →
      env.NewJWTSignerHandler config.SignerProxy.Signer = .ok fwp →
      env.NewJWTVerifierHandler config.VerifierProxy.Verifier = .ok rvp →
      env.NewProxy fwp config.SignerProxy.CAKeyFile config.SignerProxy.CACrtFile = .error err →
      ∀ sched,
        (main env args sched).exit = some .fatal ∧
        (main env args sched).trace.getLast? =
          some (.Fatalf ("Failed to create forward proxy: " ++ err)) ∧
        (main env args sched).forward = .absent ∧ (main env args sched).reverse = .absent ∧
        (∀ c, Event.Serve c ∉ (main env args sched).trace) ∧
        (level = .Panic → (main env args sched).written = []) ∧
        (level ≠ .Panic →
          (main env args sched).written =
            [(.Fatal, "Failed to create forward proxy: " ++ err)])) := by
  have key : ∀ k err,
      env.firstFailure (parsed.deref "config") (parsed.deref "log-level") = some (k, err) →
      ∀ sched,
        (main env args sched).exit = some .fatal ∧
        (main env args sched).trace.getLast? = some (.Fatalf (k.diagnostic ++ err)) ∧
        (main env args sched).forward = .absent ∧ (main env args sched).reverse = .absent ∧
        (main env args sched).fatal = none ∧
        (∀ c, Event.Serve c ∉ (main env args sched).trace) ∧
        (2 ≤ k.index → env.ParseLevel (parsed.deref "log-level") = .ok .Panic →
          (main env args sched).written = []) ∧
        ((2 ≤ k.index → env.ParseLevel (parsed.deref "log-level") ≠ .ok .Panic) →
          (main env args sched).written = [(.Fatal, k.diagnostic ++ err)]) := by
    intro k err hk sched
    obtain ⟨tr, hm, -, hlast, hev, -, -, hw₁, hw₂⟩ :=
      main_of_firstFailure env args parsed hp k err hk sched
    rw [hm]
    refine ⟨rfl, hlast, rfl, rfl, rfl, ?_, hw₁, hw₂⟩
    intro c hc
    have := hev _ hc
    simp [Event.afterStartup] at this
  refine ⟨?_, ?_, ?_, ?_⟩
  · rw [startup_of_parse env args parsed hp]
    exact startupFrom_ready_iff env _ _
  · intro tr config fp rp h
    obtain ⟨h₁, h₂, h₃⟩ := main_both_serving env args tr config fp rp h
    simp [h₁, h₂, h₃, Gor.isServing]
  · intro hs
    rw [← firstFailure_none_iff] at hs
    obtain ⟨⟨k, err⟩, hk⟩ := Option.ne_none_iff_exists'.mp hs
    refine ⟨k, err, hk, ?_⟩
    intro sched
    obtain ⟨a, b, c, d, e, f, g, h⟩ := key k err hk sched
    exact ⟨a, rfl, b, c, d, e, f, g, h⟩
  · intro config level fwp rvp err h₁ h₂ h₃ h₄ h₅ sched
    have hk : env.firstFailure (parsed.deref "config") (parsed.deref "log-level") =
        some (.NewProxy, err) := by
      simp only [Env.firstFailure, h₁, h₂, h₃, h₄, h₅]
    obtain ⟨a, b, c, d, -, f, g, h⟩ := key _ err hk sched
    refine ⟨a, b, c, d, f, ?_, ?_⟩
    · intro hl
      subst hl
      exact g (by simp [Step.index]) h₂
    · intro hl
      apply h
      intro _
      rw [h₂]
      intro heq
      simp only [Except.ok.injEq] at heq
      exact hl heq

theorem startup_all_or_nothing_witness :
    CommandLine.Parse [("config", "jwtproxy.yaml")] =
        some ⟨[⟨"config", "Load configuration from the specified yaml file.", "jwtproxy.yaml", ""⟩,
          ⟨"log-level", "Define the logging level.", "info", "info"⟩]⟩ ∧
      ∀ sched,
        (main (demoEnv "" "" [.NewProxy]) [("config", "jwtproxy.yaml")] sched).exit =
            some .fatal ∧
          (main (demoEnv "" "" [.NewProxy]) [("config", "jwtproxy.yaml")] sched).trace.getLast? =
            some (.Fatalf ("Failed to create forward proxy: " ++ "boom")) ∧
          (main (demoEnv "" "" [.NewProxy]) [("config", "jwtproxy.yaml")] sched).forward =
            .absent ∧
          (main (demoEnv "" "" [.NewProxy]) [("config", "jwtproxy.yaml")] sched).reverse =
            .absent ∧
          (∀ c, Event.Serve c ∉
            (main (demoEnv "" "" [.NewProxy]) [("config", "jwtproxy.yaml")] sched).trace) ∧
          (Level.Info = .Panic →
            (main (demoEnv "" "" [.NewProxy]) [("config", "jwtproxy.yaml")] sched).written = []) ∧
          (Level.Info ≠ .Panic →
            (main (demoEnv "" "" [.NewProxy]) [("config", "jwtproxy.yaml")] sched).written =
              [(.Fatal, "Failed to create forward proxy: " ++ "boom")]) :=
  ⟨rfl,
    (startup_all_or_nothing (demoEnv "" "" [.NewProxy]) [("config", "jwtproxy.yaml")] _
      rfl).2.2.2 (demoConfig "" "") .Info "signer" "verifier" "boom" rfl rfl rfl rfl rfl⟩

end Startup

/-! ## Startup: which failure is reported -/

section FirstFailure

variable {T : Collab}

/-- C9, as stated, fails in "main reports the failure". The command line sets
the log level to "panic"; `jwt.NewJWTSignerHandler` and
`proxy.NewReverseProxy` would both fail, and the earlier of the two ends the
process through `log.Fatalf`: but `log.SetLevel` has run with the level
`Panic`, and logrus writes nothing, so no failure is reported. -/
theorem first_failure_counterexample :
    CommandLine.Parse [("log-level", "panic")] =
        some ⟨[⟨"config", "Load configuration from the specified yaml file.", "", ""⟩,
          ⟨"log-level", "Define the logging level.", "panic", "info"⟩]⟩ ∧
      (demoEnv "" "" [.NewJWTSignerHandler, .NewReverseProxy]).firstFailure "" "panic" =
        some (.NewJWTSignerHandler, "boom") ∧
      (main (demoEnv "" "" [.NewJWTSignerHandler, .NewReverseProxy]) [("log-level", "panic")]
        []).exit = some .fatal ∧
      (main (demoEnv "" "" [.NewJWTSignerHandler, .NewReverseProxy]) [("log-level", "panic")]
        []).trace =
        [.Load "", .ParseLevel "panic", .SetLevel .Panic, .NewJWTSignerHandler "signer",
          .Fatalf "Failed to create JWT signer: boom"] ∧
      (main (demoEnv "" "" [.NewJWTSignerHandler, .NewReverseProxy]) [("log-level", "panic")]
        []).written = [] :=
  ⟨rfl, rfl, rfl, rfl, rfl⟩

/-- C9, amended. The startup failure handled is that of the first failing call
in the order `config.Load`, `log.ParseLevel`, `jwt.NewJWTSignerHandler`,
`jwt.NewJWTVerifierHandler`, `proxy.NewProxy`, `proxy.NewReverseProxy`. On a
command line that parses: when not all calls succeed there is an earliest
failing call `k`; the process then ends through `log.Fatalf` with the
diagnostic of `k` as argument, the startup calls made are exactly those up to
and including `k`, `log.SetLevel` is called only if `k` comes after
`log.ParseLevel`, and usage is printed only if `k` is `config.Load`. The
diagnostic is the one entry logrus writes, except when `k` comes after
`log.SetLevel` and the level set is `Panic`: then nothing is written. When
both `config.Load` and `log.ParseLevel` would fail, the events are the call of
`config.Load`, the usage message and "Failed to load configuration", which
is written: the level is neither parsed nor set. -/
theorem first_failure_is_reported (env : Env T) (args : List (String × String))
    (parsed : FlagSet) (hp : CommandLine.Parse args = some parsed) (sched : List Action) :
    (¬ env.succeeds (parsed.deref "config") (parsed.deref "log-level") →
      ∃ k err,
        env.firstFailure (parsed.deref "config") (parsed.deref "log-level") = some (k, err)) ∧
    (∀ k err,
      env.firstFailure (parsed.deref "config") (parsed.deref "log-level") = some (k, err) →
      (main env args sched).exit = some .fatal ∧
      (main env args sched).trace.getLast? = some (.Fatalf (k.diagnostic ++ err)) ∧
      (main env args sched).trace.filterMap Event.step? = Step.all.take (k.index + 1) ∧
      ((main env args sched).trace.any Event.isSetLevel = true ↔ 2 ≤ k.index) ∧
      (Event.Usage ∈ (main env args sched).trace ↔ k = .Load) ∧
      (2 ≤ k.index → env.ParseLevel (parsed.deref "log-level") = .ok .Panic →
        (main env args sched).written = []) ∧
      ((2 ≤ k.index → env.ParseLevel (parsed.deref "log-level") ≠ .ok .Panic) →
        (main env args sched).written = [(.Fatal, k.diagnostic ++ err)])) ∧
    (∀ e₁ e₂,
      env.Load (parsed.deref "config") = .error e₁ →
      env.ParseLevel (parsed.deref "log-level") = .error e₂ →
      (main env args sched).exit = some .fatal ∧
      (main env args sched).trace =
        [.Load (parsed.deref "config"), .Usage,
          .Fatalf ("Failed to load configuration: " ++ e₁)] ∧
      (main env args sched).written = [(.Fatal, "Failed to load configuration: " ++ e₁)]) := by
  refine ⟨?_, ?_, ?_⟩
  · intro hs
    rw [← firstFailure_none_iff] at hs
    obtain ⟨⟨k, err⟩, hk⟩ := Option.ne_none_iff_exists'.mp hs
    exact ⟨k, err, hk⟩
  · intro k err hk
    obtain ⟨tr, hm, hsteps, hlast, -, hset, husage, hw₁, hw₂⟩ :=
      main_of_firstFailure env args parsed hp k err hk sched
    rw [hm]
    refine ⟨rfl, hlast, hsteps, ?_, husage, hw₁, hw₂⟩
    show tr.any Event.isSetLevel = true ↔ _
    rw [hset]
    simp
  · intro e₁ e₂ h₁ _
    rw [main_of_exited env args sched
      [.Load (parsed.deref "config"), .Usage, .Fatalf ("Failed to load configuration: " ++ e₁)]
      .fatal]
    · refine ⟨rfl, rfl, ?_⟩
      simp [Proc.written, Proc.ended, logEntries, Level.writes, Level.rank]
    · rw [startup_of_parse env args parsed hp]
      simp only [startupFrom, h₁]
      rfl

theorem first_failure_is_reported_witness :
    CommandLine.Parse [("log-level", "loud")] =
        some ⟨[⟨"config", "Load configuration from the specified yaml file.", "", ""⟩,
          ⟨"log-level", "Define the logging level.", "loud", "info"⟩]⟩ ∧
      (demoEnv "" "" [.Load, .ParseLevel]).Load "" = .error "boom" ∧
      (demoEnv "" "" [.Load, .ParseLevel]).ParseLevel "loud" = .error "boom" ∧
      (main (demoEnv "" "" [.Load, .ParseLevel]) [("log-level", "loud")] []).exit =
        some .fatal ∧
      (main (demoEnv "" "" [.Load, .ParseLevel]) [("log-level", "loud")] []).trace =
        [.Load "", .Usage, .Fatalf ("Failed to load configuration: " ++ "boom")] ∧
      (main (demoEnv "" "" [.Load, .ParseLevel]) [("log-level", "loud")] []).written =
        [(.Fatal, "Failed to load configuration: " ++ "boom")] :=
  ⟨rfl, rfl, rfl,
    (first_failure_is_reported (demoEnv "" "" [.Load, .ParseLevel])
      [("log-level", "loud")] _ rfl []).2.2 "boom" "boom" rfl rfl⟩

end FirstFailure

/-! ## The two roles start together -/

section Roles

variable {T : Collab}

/-- C5, as stated, fails. In the first environment `config.Load`,
`log.ParseLevel`, `jwt.NewJWTSignerHandler`, `jwt.NewJWTVerifierHandler` and
`proxy.NewProxy` succeed and only `proxy.NewReverseProxy` fails: the forward
goroutine is never made and no listener call happens, under any schedule. In
the second one only `jwt.NewJWTSignerHandler` fails, the calls
`jwt.NewJWTVerifierHandler` and `proxy.NewReverseProxy` would succeed, and the
reverse goroutine is never made. -/
theorem roles_independent_counterexample :
    ((demoEnv "" "" [.NewReverseProxy]).Load "" = .ok (demoConfig "" "") ∧
      (demoEnv "" "" [.NewReverseProxy]).ParseLevel "info" = .ok .Info ∧
      (demoEnv "" "" [.NewReverseProxy]).NewJWTSignerHandler "signer" = .ok "signer" ∧
      (demoEnv "" "" [.NewReverseProxy]).NewProxy "signer" "ca.key" "ca.crt" = .ok "signer" ∧
      ∀ sched,
        (main (demoEnv "" "" [.NewReverseProxy]) [] sched).forward = .absent ∧
        (main (demoEnv "" "" [.NewReverseProxy]) [] sched).exit = some .fatal ∧
        (main (demoEnv "" "" [.NewReverseProxy]) [] sched).trace.getLast? =
          some (.Fatalf "Failed to create reverse proxy: boom")) ∧
    ((demoEnv "" "" [.NewJWTSignerHandler]).Load "" = .ok (demoConfig "" "") ∧
      (demoEnv "" "" [.NewJWTSignerHandler]).ParseLevel "info" = .ok .Info ∧
      (demoEnv "" "" [.NewJWTSignerHandler]).NewJWTVerifierHandler "verifier" = .ok "verifier" ∧
      (demoEnv "" "" [.NewJWTSignerHandler]).NewReverseProxy "verifier" = .ok "verifier" ∧
      ∀ sched,
        (main (demoEnv "" "" [.NewJWTSignerHandler]) [] sched).reverse = .absent ∧
        (main (demoEnv "" "" [.NewJWTSignerHandler]) [] sched).exit = some .fatal ∧
        (main (demoEnv "" "" [.NewJWTSignerHandler]) [] sched).trace.getLast? =
          some (.Fatalf "Failed to create JWT signer: boom")) := by
  refine ⟨⟨rfl, rfl, rfl, rfl, ?_⟩, ⟨rfl, rfl, rfl, rfl, ?_⟩⟩
  · intro sched
    rw [main_of_exited (demoEnv "" "" [.NewReverseProxy]) [] sched _ .fatal rfl]
    exact ⟨rfl, rfl, rfl⟩
  · intro sched
    rw [main_of_exited (demoEnv "" "" [.NewJWTSignerHandler]) [] sched _ .fatal rfl]
    exact ⟨rfl, rfl, rfl⟩

/-- C5, amended. On a command line that parses, the forward listener is
started under some schedule exactly when all six startup calls succeed, and so
is the reverse listener: a failure on either side keeps both from starting. -/
theorem roles_start_together (env : Env T) (args : List (String × String)) (parsed : FlagSet)
    (hp : CommandLine.Parse args = some parsed) :
    ((∃ sched, (main env args sched).forward.isServing = true) ↔
      env.succeeds (parsed.deref "config") (parsed.deref "log-level")) ∧
    ((∃ sched, (main env args sched).reverse.isServing = true) ↔
      env.succeeds (parsed.deref "config") (parsed.deref "log-level")) := by
  have hnot : ¬ env.succeeds (parsed.deref "config") (parsed.deref "log-level") →
      ∀ sched, (main env args sched).forward = .absent ∧
        (main env args sched).reverse = .absent := by
    intro hs sched
    rw [← firstFailure_none_iff] at hs
    obtain ⟨⟨k, err⟩, hk⟩ := Option.ne_none_iff_exists'.mp hs
    obtain ⟨tr, hm, -⟩ := main_of_firstFailure env args parsed hp k err hk sched
    rw [hm]
    exact ⟨rfl, rfl⟩
  have hyes : env.succeeds (parsed.deref "config") (parsed.deref "log-level") →
      (main env args [.main, .main, .forward, .reverse]).forward.isServing = true ∧
        (main env args [.main, .main, .forward, .reverse]).reverse.isServing = true := by
    intro hs
    rw [← startupFrom_ready_iff, ← startup_of_parse env args parsed hp] at hs
    obtain ⟨tr, config, fp, rp, h⟩ := hs
    obtain ⟨h₁, h₂, -⟩ := main_both_serving env args tr config fp rp h
    simp [h₁, h₂, Gor.isServing]
  constructor
  · constructor
    · rintro ⟨sched, hs⟩
      by_contra hn
      rw [(hnot hn sched).1] at hs
      simp [Gor.isServing] at hs
    · intro hs
      exact ⟨_, (hyes hs).1⟩
  · constructor
    · rintro ⟨sched, hs⟩
      by_contra hn
      rw [(hnot hn sched).2] at hs
      simp [Gor.isServing] at hs
    · intro hs
      exact ⟨_, (hyes hs).2⟩

theorem roles_start_together_witness :
    CommandLine.Parse [] = some CommandLine ∧
      ((∃ sched, (main (demoEnv "" "" [.NewReverseProxy]) [] sched).forward.isServing = true) ↔
        (demoEnv "" "" [.NewReverseProxy]).succeeds (CommandLine.deref "config")
          (CommandLine.deref "log-level")) :=
  ⟨rfl, (roles_start_together (demoEnv "" "" [.NewReverseProxy]) [] CommandLine rfl).1⟩

end Roles

/-! ## The command line -/

section Flags

theorem assign_names (l : List Flag) (name value : String) :
    (Flag.assign l name value).map (fun fl => fl.Name) = l.map (fun fl => fl.Name) := by
  induction l with
  | nil => rfl
  | cons a rest ih =>
    simp only [Flag.assign, List.map_cons, ih]
    split <;> rfl

theorem valueOf_assign (l : List Flag) (n name v : String) :
    Flag.valueOf (Flag.assign l n v) name =
      if n = name ∧ name ∈ l.map (fun fl => fl.Name) then v else Flag.valueOf l name := by
  induction l with
  | nil => simp [Flag.assign, Flag.valueOf]
  | cons a rest ih =>
    simp only [Flag.assign, Flag.valueOf, List.map_cons, List.mem_cons]
    by_cases hn : a.Name = n
    · rw [if_pos hn]
      by_cases ha : a.Name = name
      · have h1 : n = name := by rw [← hn, ha]
        simp [ha, h1]
      · have h1 : ¬ n = name := by
          intro h
          exact ha (by rw [hn, h])
        simp [ha, h1, ih]
    · rw [if_neg hn]
      by_cases ha : a.Name = name
      · have h1 : ¬ n = name := by
          intro h
          exact hn (by rw [ha, h])
        simp [ha, h1]
      · have h1 : ¬ name = a.Name := fun h => ha h.symm
        simp [ha, h1, ih]

theorem flagSet_set_names (f g : FlagSet) (name value : String)
    (h : f.set name value = some g) : g.names = f.names := by
  unfold FlagSet.set at h
  split at h
  · simp only [Option.some.injEq] at h
    subst h
    exact assign_names f.formal name value
  · simp at h

theorem flagSet_set_deref (f g : FlagSet) (n v name : String) (h : f.set n v = some g) :
    g.deref name = if n = name then v else f.deref name := by
  unfold FlagSet.set at h
  split at h
  · rename_i hn
    simp only [Option.some.injEq] at h
    subst h
    simp only [FlagSet.deref, valueOf_assign]
    by_cases hnn : n = name
    · subst hnn
      have : n ∈ f.formal.map (fun fl => fl.Name) := hn
      simp [this]
    · simp [hnn]
  · simp at h

/-- The value a parsed flag has is the last one the command line gives it, or
the one it stood at. -/
theorem parse_deref (args : List (String × String)) (f g : FlagSet) (name : String)
    (h : f.Parse args = some g) : g.deref name = flagValue args name (f.deref name) := by
  induction args generalizing f with
  | nil =>
    simp only [FlagSet.Parse, Option.some.injEq] at h
    subst h
    rfl
  | cons a rest ih =>
    obtain ⟨n, v⟩ := a
    simp only [FlagSet.Parse] at h
    split at h
    · simp at h
    · rename_i f' hset
      rw [ih f' h, flagSet_set_deref f f' n v name hset]
      rfl

/-- The command line parses exactly when it sets defined flags only. -/
theorem parse_isSome (args : List (String × String)) (f : FlagSet) :
    (f.Parse args).isSome = true ↔ ∀ a ∈ args, a.1 ∈ f.names := by
  induction args generalizing f with
  | nil => simp [FlagSet.Parse]
  | cons a rest ih =>
    obtain ⟨n, v⟩ := a
    simp only [FlagSet.Parse, List.mem_cons, forall_eq_or_imp]
    split
    · rename_i hset
      have : n ∉ f.names := by
        intro hn
        simp [FlagSet.set, hn] at hset
      simp [this]
    · rename_i f' hset
      have hn : n ∈ f.names := by
        by_contra hn
        simp [FlagSet.set, hn] at hset
      rw [ih f', flagSet_set_names f f' n v hset]
      simp [hn]

theorem flagValue_of_not_mem (args : List (String × String)) (name cur : String)
    (h : ∀ a ∈ args, a.1 ≠ name) : flagValue args name cur = cur := by
  induction args generalizing cur with
  | nil => rfl
  | cons a rest ih =>
    obtain ⟨n, v⟩ := a
    have hn : n ≠ name := h (n, v) (by simp)
    simp only [flagValue, hn, if_false]
    exact ih cur (fun b hb => h b (by simp [hb]))

end Flags

section Traces

variable {T : Collab}

theorem step_trace (config : Config T) (fp : T.ForwardProxy) (rp : T.ReverseProxy)
    (p : Proc T) (a : Action) :
    ∃ rest, (step config fp rp p a).trace = p.trace ++ rest ∧
      ∀ e ∈ rest, e.afterStartup = true := by
  unfold step
  split
  · exact ⟨[], by simp, by simp⟩
  · cases a with
    | main =>
      refine ⟨[], ?_, by simp⟩
      simp only [stepMain]
      split
      · simp
      · simp
      · split <;> simp
      · simp
    | forward =>
      simp only [stepForward]
      split
      · exact ⟨_, rfl, by simp [Event.afterStartup]⟩
      · exact ⟨_, rfl, by simp [Event.afterStartup]⟩
      · exact ⟨[], by simp, by simp⟩
    | reverse =>
      simp only [stepReverse]
      split
      · exact ⟨_, rfl, by simp [Event.afterStartup]⟩
      · exact ⟨_, rfl, by simp [Event.afterStartup]⟩
      · exact ⟨[], by simp, by simp⟩
      · exact ⟨[], by simp, by simp⟩
    | fatal =>
      simp only [stepFatal]
      split
      · exact ⟨_, rfl, by simp [Event.afterStartup]⟩
      · exact ⟨[], by simp, by simp⟩
    | fail r err =>
      simp only [stepFail]
      split
      · split
        · exact ⟨_, rfl, by simp [Event.afterStartup]⟩
        · exact ⟨[], by simp, by simp⟩
      · split
        · exact ⟨_, rfl, by simp [Event.afterStartup]⟩
        · exact ⟨[], by simp, by simp⟩
    | signal s =>
      refine ⟨[], ?_, by simp⟩
      simp only [stepSignal]
      split
      · split
        · simp
        · split <;> simp
      · split <;> simp

theorem run_trace (config : Config T) (fp : T.ForwardProxy) (rp : T.ReverseProxy)
    (sched : List Action) (p : Proc T) :
    ∃ rest, (run config fp rp p sched).trace = p.trace ++ rest ∧
      ∀ e ∈ rest, e.afterStartup = true := by
  induction sched generalizing p with
  | nil => exact ⟨[], by simp [run], by simp⟩
  | cons a more ih =>
    obtain ⟨r₁, h₁, h₁'⟩ := step_trace config fp rp p a
    obtain ⟨r₂, h₂, h₂'⟩ := ih (step config fp rp p a)
    refine ⟨r₁ ++ r₂, ?_, ?_⟩
    · simp only [run]
      rw [h₂, h₁, List.append_assoc]
    · intro e he
      rcases List.mem_append.mp he with h | h
      · exact h₁' e h
      · exact h₂' e h

/-- The events of the process are those of the startup sequence, followed by
events of the goroutines. -/
theorem main_trace (env : Env T) (args : List (String × String)) (sched : List Action) :
    ∃ rest, (main env args sched).trace = (startup env args).trace ++ rest ∧
      ∀ e ∈ rest, e.afterStartup = true := by
  unfold main
  split
  · rename_i e tr h
    exact ⟨[], by simp [h, Boot.trace, Proc.ended], by simp⟩
  · rename_i tr config fp rp h
    rw [h]
    exact run_trace config fp rp sched (Proc.start tr)

/-- The arguments of `config.Load` and `log.ParseLevel` in the startup
sequence. -/
theorem startupFrom_trace_args (env : Env T) (path lvl : String) :
    (startupFrom env path lvl).trace.head? = some (.Load path) ∧
    (∀ q, Event.Load q ∈ (startupFrom env path lvl).trace → q = path) ∧
    (∀ s, Event.ParseLevel s ∈ (startupFrom env path lvl).trace → s = lvl) ∧
    (∀ config, env.Load path = .ok config →
      Event.ParseLevel lvl ∈ (startupFrom env path lvl).trace) := by
  cases h₁ : env.Load path with
  | error err => simp [startupFrom, h₁, Boot.trace]
  | ok config =>
    cases h₂ : env.ParseLevel lvl with
    | error err => simp [startupFrom, h₁, h₂, Boot.trace]
    | ok level =>
      cases h₃ : env.NewJWTSignerHandler config.SignerProxy.Signer with
      | error err => simp [startupFrom, h₁, h₂, h₃, Boot.trace]
      | ok fwp =>
        cases h₄ : env.NewJWTVerifierHandler config.VerifierProxy.Verifier with
        | error err => simp [startupFrom, h₁, h₂, h₃, h₄, Boot.trace]
        | ok rvp =>
          cases h₅ : env.NewProxy fwp config.SignerProxy.CAKeyFile config.SignerProxy.CACrtFile with
          | error err => simp [startupFrom, h₁, h₂, h₃, h₄, h₅, Boot.trace]
          | ok fp =>
            cases h₆ : env.NewReverseProxy rvp with
            | error err => simp [startupFrom, h₁, h₂, h₃, h₄, h₅, h₆, Boot.trace]
            | ok rp => simp [startupFrom, h₁, h₂, h₃, h₄, h₅, h₆, Boot.trace]

end Traces

section CommandLineSurface

variable {T : Collab}

/-- C6. The flag set of `main` has exactly the flags "config", with default
the empty string, and "log-level", with default "info": a command line parses
exactly when it sets no other flag. On a command line that parses, the first
thing `main` does is call `config.Load`, on the value the command line gives
"config" and on no other; `log.ParseLevel` is called on the value the command
line gives "log-level" and on no other, and it is called whenever
`config.Load` succeeds. A flag the command line does not give has its
default: "info" for the level, the empty path for the configuration. -/
theorem cli_flags (env : Env T) (args : List (String × String)) :
    CommandLine.names = ["config", "log-level"] ∧
    CommandLine.deref "config" = "" ∧ CommandLine.deref "log-level" = "info" ∧
    ((CommandLine.Parse args).isSome = true ↔
      ∀ a ∈ args, a.1 = "config" ∨ a.1 = "log-level") ∧
    (∀ parsed, CommandLine.Parse args = some parsed →
      parsed.deref "config" = flagValue args "config" "" ∧
      parsed.deref "log-level" = flagValue args "log-level" "info" ∧
      ∀ sched,
        (main env args sched).trace.head? = some (.Load (flagValue args "config" "")) ∧
        (∀ q, Event.Load q ∈ (main env args sched).trace → q = flagValue args "config" "") ∧
        (∀ s, Event.ParseLevel s ∈ (main env args sched).trace →
          s = flagValue args "log-level" "info") ∧
        (∀ config, env.Load (flagValue args "config" "") = .ok config →
          Event.ParseLevel (flagValue args "log-level" "info") ∈ (main env args sched).trace)) ∧
    ((∀ a ∈ args, a.1 ≠ "log-level") → flagValue args "log-level" "info" = "info") ∧
    ((∀ a ∈ args, a.1 ≠ "config") → flagValue args "config" "" = "") := by
  refine ⟨rfl, rfl, rfl, ?_, ?_, ?_, ?_⟩
  · rw [parse_isSome]
    have : CommandLine.names = ["config", "log-level"] := rfl
    simp [this]
  · intro parsed hp
    have hc : parsed.deref "config" = flagValue args "config" "" :=
      parse_deref args CommandLine parsed "config" hp
    have hl : parsed.deref "log-level" = flagValue args "log-level" "info" :=
      parse_deref args CommandLine parsed "log-level" hp
    refine ⟨hc, hl, ?_⟩
    intro sched
    obtain ⟨rest, ht, hrest⟩ := main_trace env args sched
    rw [startup_of_parse env args parsed hp, hc, hl] at ht
    obtain ⟨h₁, h₂, h₃, h₄⟩ :=
      startupFrom_trace_args env (flagValue args "config" "") (flagValue args "log-level" "info")
    rw [ht]
    refine ⟨?_, ?_, ?_, ?_⟩
    · cases hs : (startupFrom env (flagValue args "config" "")
          (flagValue args "log-level" "info")).trace with
      | nil => simp [hs] at h₁
      | cons e more => simpa [hs] using h₁
    · intro q hq
      rcases List.mem_append.mp hq with h | h
      · exact h₂ q h
      · have := hrest _ h
        simp [Event.afterStartup] at this
    · intro s hs
      rcases List.mem_append.mp hs with h | h
      · exact h₃ s h
      · have := hrest _ h
        simp [Event.afterStartup] at this
    · intro config hcfg
      exact List.mem_append.mpr (Or.inl (h₄ config hcfg))
  · exact flagValue_of_not_mem args "log-level" "info"
  · exact flagValue_of_not_mem args "config" ""

theorem cli_flags_witness :
    CommandLine.Parse [("config", "a.yaml"), ("config", "b.yaml")] =
        some ⟨[⟨"config", "Load configuration from the specified yaml file.", "b.yaml", ""⟩,
          ⟨"log-level", "Define the logging level.", "info", "info"⟩]⟩ ∧
      (main (demoEnv "" "" []) [("config", "a.yaml"), ("config", "b.yaml")] []).trace.head? =
        some (.Load (flagValue [("config", "a.yaml"), ("config", "b.yaml")] "config" "")) ∧
      flagValue [("config", "a.yaml"), ("config", "b.yaml")] "log-level" "info" = "info" :=
  ⟨rfl,
    ((cli_flags (demoEnv "" "" []) [("config", "a.yaml"), ("config", "b.yaml")]).2.2.2.2.1 _
      rfl).2.2 [] |>.1,
    (cli_flags (demoEnv "" "" []) [("config", "a.yaml"), ("config", "b.yaml")]).2.2.2.2.2.1
      (by decide)⟩

end CommandLineSurface

/-! ## Wiring of the two roles -/

section RoleWiring

variable {T : Collab}

theorem startup_ready_from (env : Env T) (args : List (String × String)) (tr : List (Event T))
    (config : Config T) (fp : T.ForwardProxy) (rp : T.ReverseProxy)
    (h : startup env args = .ready tr config fp rp) :
    ∃ path lvl, startupFrom env path lvl = .ready tr config fp rp := by
  unfold startup at h
  split at h
  · simp at h
  · exact ⟨_, _, h⟩

theorem reverseCall_eq (config : Config T) (rp : T.ReverseProxy) :
    (config.VerifierProxy.CrtFile ≠ "" ∧ config.VerifierProxy.KeyFile ≠ "" →
      reverseCall config rp =
        .ListenAndServeTLS config.VerifierProxy.ListenAddr config.VerifierProxy.CrtFile
          config.VerifierProxy.KeyFile (.inr rp)) ∧
    (¬ (config.VerifierProxy.CrtFile ≠ "" ∧ config.VerifierProxy.KeyFile ≠ "") →
      reverseCall config rp = .ListenAndServe config.VerifierProxy.ListenAddr (.inr rp)) := by
  constructor
  · intro hb
    have : (config.VerifierProxy.CrtFile != "" && config.VerifierProxy.KeyFile != "") = true := by
      simpa using hb
    simp only [reverseCall, this, if_true]
  · intro hb
    have : (config.VerifierProxy.CrtFile != "" && config.VerifierProxy.KeyFile != "") = false := by
      simpa using hb
    simp only [reverseCall, this]
    rfl

theorem main_both_trace (env : Env T) (args : List (String × String))
    (tr : List (Event T)) (config : Config T) (fp : T.ForwardProxy) (rp : T.ReverseProxy)
    (h : startup env args = .ready tr config fp rp) :
    (main env args [.main, .main, .forward, .reverse]).trace =
      tr ++ [.Infof ("Starting forward proxy (Listening on '" ++
          config.SignerProxy.ListenAddr ++ "')"),
        .Serve (forwardCall config fp), .Infof (reverseInfo config),
        .Serve (reverseCall config rp)] := by
  simp [main_of_ready env args _ tr config fp rp h, run, step, Proc.start, stepMain,
    stepReverse, stepForward]

/-- C10. After a successful startup the forward proxy is the value
`proxy.NewProxy` returned for the signer handler, `SignerProxy.CAKeyFile` and
`SignerProxy.CACrtFile`, in this order, and it is served by
`http.ListenAndServe` on `SignerProxy.ListenAddr`; the reverse proxy is the
value `proxy.NewReverseProxy` returned for the verifier handler alone, and it
is served on `VerifierProxy.ListenAddr`, in TLS mode with
`VerifierProxy.CrtFile` as certificate file and `VerifierProxy.KeyFile` as key
file. Both listener calls are made (once each goroutine has taken its first
step, with the process running), and under every schedule they are the only
listener calls. Nothing of the signer side reaches
the reverse proxy or its listener call: a second successful startup with the
same verifier-side collaborators and the same `VerifierProxy` configuration
yields the same reverse proxy and the same listener call, whatever its signer
side is; and symmetrically for the forward proxy. -/
theorem wiring_not_crossed (env : Env T) (args : List (String × String))
    (tr : List (Event T)) (config : Config T) (fp : T.ForwardProxy) (rp : T.ReverseProxy)
    (h : startup env args = .ready tr config fp rp) :
    (∃ fwp rvp,
      env.NewJWTSignerHandler config.SignerProxy.Signer = .ok fwp ∧
      env.NewProxy fwp config.SignerProxy.CAKeyFile config.SignerProxy.CACrtFile = .ok fp ∧
      env.NewJWTVerifierHandler config.VerifierProxy.Verifier = .ok rvp ∧
      env.NewReverseProxy rvp = .ok rp ∧
      ∀ sched,
        (∀ a k c, Event.NewProxy a k c ∈ (main env args sched).trace →
          a = fwp ∧ k = config.SignerProxy.CAKeyFile ∧ c = config.SignerProxy.CACrtFile) ∧
        (∀ a, Event.NewReverseProxy a ∈ (main env args sched).trace → a = rvp) ∧
        (∀ a, Event.NewJWTSignerHandler a ∈ (main env args sched).trace →
          a = config.SignerProxy.Signer) ∧
        (∀ a, Event.NewJWTVerifierHandler a ∈ (main env args sched).trace →
          a = config.VerifierProxy.Verifier)) ∧
    ((main env args [.main, .main, .forward, .reverse]).exit = none ∧
      (main env args [.main, .main, .forward, .reverse]).forward =
        .serving (.ListenAndServe config.SignerProxy.ListenAddr (.inl fp)) ∧
      (config.VerifierProxy.CrtFile ≠ "" ∧ config.VerifierProxy.KeyFile ≠ "" →
        (main env args [.main, .main, .forward, .reverse]).reverse =
          .serving (.ListenAndServeTLS config.VerifierProxy.ListenAddr
            config.VerifierProxy.CrtFile config.VerifierProxy.KeyFile (.inr rp))) ∧
      (¬ (config.VerifierProxy.CrtFile ≠ "" ∧ config.VerifierProxy.KeyFile ≠ "") →
        (main env args [.main, .main, .forward, .reverse]).reverse =
          .serving (.ListenAndServe config.VerifierProxy.ListenAddr (.inr rp))) ∧
      (main env args [.main, .main, .forward, .reverse]).trace =
        tr ++ [.Infof ("Starting forward proxy (Listening on '" ++
            config.SignerProxy.ListenAddr ++ "')"),
          .Serve (.ListenAndServe config.SignerProxy.ListenAddr (.inl fp)),
          .Infof (reverseInfo config), .Serve (reverseCall config rp)]) ∧
    (∀ sched c, (main env args sched).forward = .serving c →
      c = .ListenAndServe config.SignerProxy.ListenAddr (.inl fp)) ∧
    (∀ sched c, (main env args sched).reverse = .serving c →
      (config.VerifierProxy.CrtFile ≠ "" ∧ config.VerifierProxy.KeyFile ≠ "" →
        c = .ListenAndServeTLS config.VerifierProxy.ListenAddr config.VerifierProxy.CrtFile
          config.VerifierProxy.KeyFile (.inr rp)) ∧
      (¬ (config.VerifierProxy.CrtFile ≠ "" ∧ config.VerifierProxy.KeyFile ≠ "") →
        c = .ListenAndServe config.VerifierProxy.ListenAddr (.inr rp))) ∧
    (∀ sched c, Event.Serve c ∈ (main env args sched).trace →
      c = forwardCall config fp ∨ c = reverseCall config rp) ∧
    (∀ (env₂ : Env T) args₂ tr₂ config₂ fp₂ rp₂,
      startup env₂ args₂ = .ready tr₂ config₂ fp₂ rp₂ →
      env₂.NewJWTVerifierHandler = env.NewJWTVerifierHandler →
      env₂.NewReverseProxy = env.NewReverseProxy →
      config₂.VerifierProxy = config.VerifierProxy →
      rp₂ = rp ∧ reverseCall config₂ rp₂ = reverseCall config rp) ∧
    (∀ (env₂ : Env T) args₂ tr₂ config₂ fp₂ rp₂,
      startup env₂ args₂ = .ready tr₂ config₂ fp₂ rp₂ →
      env₂.NewJWTSignerHandler = env.NewJWTSignerHandler →
      env₂.NewProxy = env.NewProxy →
      config₂.SignerProxy = config.SignerProxy →
      fp₂ = fp ∧ forwardCall config₂ fp₂ = forwardCall config fp) := by
  obtain ⟨path, lvl, hfrom⟩ := startup_ready_from env args tr config fp rp h
  obtain ⟨level, fwp, rvp, h₁, h₂, h₃, h₄, h₅, h₆, htr⟩ :=
    startupFrom_ready_trace env path lvl tr config fp rp hfrom
  refine ⟨⟨fwp, rvp, h₃, h₅, h₄, h₆, ?_⟩, ?_, ?_, ?_, ?_, ?_, ?_⟩
  · intro sched
    obtain ⟨rest, ht, hrest⟩ := main_trace env args sched
    rw [h] at ht
    simp only [Boot.trace] at ht
    rw [ht, htr]
    refine ⟨?_, ?_, ?_, ?_⟩
    · intro a k c hm
      rcases List.mem_append.mp hm with hm | hm
      · simpa using hm
      · have := hrest _ hm
        simp [Event.afterStartup] at this
    · intro a hm
      rcases List.mem_append.mp hm with hm | hm
      · simpa using hm
      · have := hrest _ hm
        simp [Event.afterStartup] at this
    · intro a hm
      rcases List.mem_append.mp hm with hm | hm
      · simpa using hm
      · have := hrest _ hm
        simp [Event.afterStartup] at this
    · intro a hm
      rcases List.mem_append.mp hm with hm | hm
      · simpa using hm
      · have := hrest _ hm
        simp [Event.afterStartup] at this
  · obtain ⟨g₁, g₂, g₃⟩ := main_both_serving env args tr config fp rp h
    refine ⟨g₃, g₁, ?_, ?_, main_both_trace env args tr config fp rp h⟩
    · intro hb
      rw [g₂, (reverseCall_eq config rp).1 hb]
    · intro hb
      rw [g₂, (reverseCall_eq config rp).2 hb]
  · intro sched c hc
    have hw := (main_wireInv env args sched tr config fp rp h).forward
    rw [hc] at hw
    simpa [forwardCall] using hw
  · intro sched c hc
    have hw := (main_wireInv env args sched tr config fp rp h).reverse
    rw [hc] at hw
    have hcall : c = reverseCall config rp := by simpa using hw
    rw [hcall]
    exact reverseCall_eq config rp
  · intro sched c hc
    exact (main_wireInv env args sched tr config fp rp h).serve c hc
  · intro env₂ args₂ tr₂ config₂ fp₂ rp₂ h' e₁ e₂ e₃
    obtain ⟨path₂, lvl₂, hfrom₂⟩ := startup_ready_from env₂ args₂ tr₂ config₂ fp₂ rp₂ h'
    obtain ⟨level₂, fwp₂, rvp₂, -, -, -, g₄, -, g₆, -⟩ :=
      startupFrom_ready_trace env₂ path₂ lvl₂ tr₂ config₂ fp₂ rp₂ hfrom₂
    rw [e₁, e₃, h₄] at g₄
    simp only [Except.ok.injEq] at g₄
    rw [e₂, ← g₄, h₆] at g₆
    simp only [Except.ok.injEq] at g₆
    subst g₆
    refine ⟨rfl, ?_⟩
    simp only [reverseCall, e₃]
  · intro env₂ args₂ tr₂ config₂ fp₂ rp₂ h' e₁ e₂ e₃
    obtain ⟨path₂, lvl₂, hfrom₂⟩ := startup_ready_from env₂ args₂ tr₂ config₂ fp₂ rp₂ h'
    obtain ⟨level₂, fwp₂, rvp₂, -, -, g₃, -, g₅, -, -⟩ :=
      startupFrom_ready_trace env₂ path₂ lvl₂ tr₂ config₂ fp₂ rp₂ hfrom₂
    rw [e₁, e₃, h₃] at g₃
    simp only [Except.ok.injEq] at g₃
    rw [e₂, e₃, ← g₃, h₅] at g₅
    simp only [Except.ok.injEq] at g₅
    subst g₅
    refine ⟨rfl, ?_⟩
    simp only [forwardCall, e₃]

theorem wiring_not_crossed_witness :
    startup (demoEnv "server.crt" "server.key" []) [] =
        .ready [.Load "", .ParseLevel "info", .SetLevel .Info, .NewJWTSignerHandler "signer",
          .NewJWTVerifierHandler "verifier", .NewProxy "signer" "ca.key" "ca.crt",
          .NewReverseProxy "verifier"] (demoConfig "server.crt" "server.key") "signer"
          "verifier" ∧
      (main (demoEnv "server.crt" "server.key" []) []
        [.main, .main, .forward, .reverse]).forward =
        .serving (.ListenAndServe ":8080" (.inl "signer")) ∧
      (main (demoEnv "server.crt" "server.key" []) []
        [.main, .main, .forward, .reverse]).reverse =
        .serving (.ListenAndServeTLS ":8081" "server.crt" "server.key" (.inr "verifier")) ∧
      ∀ sched c,
        (main (demoEnv "server.crt" "server.key" []) [] sched).forward = .serving c →
          c = .ListenAndServe ":8080" (.inl "signer") :=
  ⟨rfl,
    (wiring_not_crossed (demoEnv "server.crt" "server.key" []) [] _ _ _ _ rfl).2.1.2.1,
    (wiring_not_crossed (demoEnv "server.crt" "server.key" []) [] _ _ _ _ rfl).2.1.2.2.1
      (by decide),
    (wiring_not_crossed (demoEnv "server.crt" "server.key" []) [] _ _ _ _ rfl).2.2.1⟩

end RoleWiring

section Ending

variable {T : Collab}

theorem endInv_start (tr : List (Event T)) : EndInv (Proc.start tr) := by
  constructor <;> simp [Proc.start]

theorem endInv_step (config : Config T) (fp : T.ForwardProxy) (rp : T.ReverseProxy)
    (p : Proc T) (a : Action) (h : EndInv p) : EndInv (step config fp rp p a) := by
  obtain ⟨hf, hr, hs, he⟩ := h
  unfold step
  split
  · exact ⟨hf, hr, hs, he⟩
  · rename_i hx
    cases a with
    | main =>
      simp only [stepMain]
      split
      · exact ⟨by simp, hr, hs, by simpa using he⟩
      · exact ⟨hf, by simp, hs, by simpa using he⟩
      · split
        · exact ⟨hf, hr, hs, by simp⟩
        · exact ⟨hf, hr, hs, by simpa using he⟩
      · exact ⟨hf, hr, hs, he⟩
    | forward =>
      simp only [stepForward]
      split
      · refine ⟨by simp, ?_, ?_, by simp [hx]⟩
        · intro c e hc
          exact List.mem_append.mpr (Or.inl (hr c e hc))
        · intro e hc
          obtain ⟨c, hc'⟩ := hs e hc
          exact ⟨c, List.mem_append.mpr (Or.inl hc')⟩
      · rename_i c err hm
        refine ⟨?_, ?_, ?_, ?_⟩
        · intro c' e hc
          exact List.mem_append.mpr (Or.inl (hf c' e hc))
        · intro c' e hc
          exact List.mem_append.mpr (Or.inl (hr c' e hc))
        · intro e hc
          obtain ⟨c', hc'⟩ := hs e hc
          exact ⟨c', List.mem_append.mpr (Or.inl hc')⟩
        · intro x hxx
          simp only [Option.some.injEq] at hxx
          subst hxx
          exact Or.inl ⟨rfl, c, err, List.mem_append.mpr (Or.inl (hf c err hm)), by simp⟩
      · exact ⟨hf, hr, hs, he⟩
    | reverse =>
      simp only [stepReverse]
      split
      · refine ⟨?_, by simp, ?_, by simp [hx]⟩
        · intro c e hc
          exact List.mem_append.mpr (Or.inl (hf c e hc))
        · intro e hc
          obtain ⟨c, hc'⟩ := hs e hc
          exact ⟨c, List.mem_append.mpr (Or.inl hc')⟩
      · rename_i a₁ a₂ a₃ a₄ err hm
        refine ⟨?_, ?_, ?_, ?_⟩
        · intro c' e hc
          exact List.mem_append.mpr (Or.inl (hf c' e hc))
        · intro c' e hc
          exact List.mem_append.mpr (Or.inl (hr c' e hc))
        · intro e hc
          obtain ⟨c', hc'⟩ := hs e hc
          exact ⟨c', List.mem_append.mpr (Or.inl hc')⟩
        · intro x hxx
          simp only [Option.some.injEq] at hxx
          subst hxx
          exact Or.inl ⟨rfl, _, err, List.mem_append.mpr (Or.inl (hr _ err hm)), by simp⟩
      · rename_i a₁ a₂ err hm
        refine ⟨hf, by simp, ?_, by simpa using he⟩
        intro e hc
        simp only [Option.some.injEq] at hc
        subst hc
        exact ⟨_, hr _ _ hm⟩
      · exact ⟨hf, hr, hs, he⟩
    | fatal =>
      simp only [stepFatal]
      split
      · rename_i err hm
        obtain ⟨c, hc⟩ := hs err hm
        refine ⟨?_, ?_, ?_, ?_⟩
        · intro c' e hc'
          exact List.mem_append.mpr (Or.inl (hf c' e hc'))
        · intro c' e hc'
          exact List.mem_append.mpr (Or.inl (hr c' e hc'))
        · intro e hc'
          obtain ⟨c', hc''⟩ := hs e hc'
          exact ⟨c', List.mem_append.mpr (Or.inl hc'')⟩
        · intro x hxx
          simp only [Option.some.injEq] at hxx
          subst hxx
          exact Or.inl ⟨rfl, c, err, List.mem_append.mpr (Or.inl hc), by simp⟩
      · exact ⟨hf, hr, hs, he⟩
    | fail r err =>
      simp only [stepFail]
      split
      · split
        · rename_i c hm
          refine ⟨?_, ?_, ?_, by simp [hx]⟩
          · intro c' e hc
            simp only [Gor.failed.injEq] at hc
            obtain ⟨rfl, rfl⟩ := hc
            simp
          · intro c' e hc
            exact List.mem_append.mpr (Or.inl (hr c' e hc))
          · intro e hc
            obtain ⟨c', hc'⟩ := hs e hc
            exact ⟨c', List.mem_append.mpr (Or.inl hc')⟩
        · exact ⟨hf, hr, hs, he⟩
      · split
        · rename_i c hm
          refine ⟨?_, ?_, ?_, by simp [hx]⟩
          · intro c' e hc
            exact List.mem_append.mpr (Or.inl (hf c' e hc))
          · intro c' e hc
            simp only [Gor.failed.injEq] at hc
            obtain ⟨rfl, rfl⟩ := hc
            simp
          · intro e hc
            obtain ⟨c', hc'⟩ := hs e hc
            exact ⟨c', List.mem_append.mpr (Or.inl hc')⟩
        · exact ⟨hf, hr, hs, he⟩
    | signal s =>
      simp only [stepSignal]
      split
      · split
        · exact ⟨hf, hr, hs, by simp [hx]⟩
        · split
          · exact ⟨hf, hr, hs, by simp⟩
          · exact ⟨hf, hr, hs, by simp [hx]⟩
      · split
        · exact ⟨hf, hr, hs, by simp⟩
        · exact ⟨hf, hr, hs, by simp [hx]⟩

theorem endInv_run (config : Config T) (fp : T.ForwardProxy) (rp : T.ReverseProxy)
    (sched : List Action) (p : Proc T) (h : EndInv p) :
    EndInv (run config fp rp p sched) := by
  induction sched generalizing p with
  | nil => exact h
  | cons a rest ih => exact ih _ (endInv_step config fp rp p a h)

theorem main_endInv (env : Env T) (args : List (String × String)) (sched : List Action)
    (tr : List (Event T)) (config : Config T) (fp : T.ForwardProxy) (rp : T.ReverseProxy)
    (h : startup env args = .ready tr config fp rp) : EndInv (main env args sched) := by
  rw [main_of_ready env args sched tr config fp rp h]
  exact endInv_run config fp rp sched _ (endInv_start tr)

end Ending

/-! ## A listener that fails -/

section ListenerFailure

variable {T : Collab}

theorem run_fail_forward (config : Config T) (fp : T.ForwardProxy) (rp : T.ReverseProxy)
    (p : Proc T) (c : Call T) (err : String) (hx : p.exit = none)
    (hc : p.forward = .serving c) :
    (run config fp rp p [.fail .forward err, .forward]).exit = some .fatal ∧
      (run config fp rp p [.fail .forward err, .forward]).trace =
        p.trace ++ [.Returned c err, .Fatal err] := by
  simp [run, step, stepFail, stepForward, hx, hc]

theorem run_fail_reverse_tls (config : Config T) (fp : T.ForwardProxy) (rp : T.ReverseProxy)
    (p : Proc T) (c : Call T) (err : String) (hx : p.exit = none)
    (hc : p.reverse = .serving c) (htls : c.isTLS = true) :
    (run config fp rp p [.fail .reverse err, .reverse]).exit = some .fatal ∧
      (run config fp rp p [.fail .reverse err, .reverse]).trace =
        p.trace ++ [.Returned c err, .Fatal err] := by
  cases c with
  | ListenAndServe addr handler => simp [Call.isTLS] at htls
  | ListenAndServeTLS addr certFile keyFile handler =>
    simp [run, step, stepFail, stepReverse, hx, hc]

theorem run_fail_reverse_plain (config : Config T) (fp : T.ForwardProxy) (rp : T.ReverseProxy)
    (p : Proc T) (c : Call T) (err : String) (hx : p.exit = none)
    (hc : p.reverse = .serving c) (htls : c.isTLS = false) :
    ((run config fp rp p [.fail .reverse err, .reverse]).exit = none ∧
      (run config fp rp p [.fail .reverse err, .reverse]).reverse = .done ∧
      (run config fp rp p [.fail .reverse err, .reverse]).fatal = some err) ∧
    (run config fp rp p [.fail .reverse err, .reverse, .fatal]).exit = some .fatal ∧
      (run config fp rp p [.fail .reverse err, .reverse, .fatal]).trace =
        p.trace ++ [.Returned c err, .Fatal err] := by
  cases c with
  | ListenAndServeTLS addr certFile keyFile handler => simp [Call.isTLS] at htls
  | ListenAndServe addr handler =>
    simp [run, step, stepFail, stepReverse, stepFatal, hx, hc]

theorem run_held_forward (config : Config T) (fp : T.ForwardProxy) (rp : T.ReverseProxy)
    (p : Proc T) (c : Call T) (err : String) (hx : p.exit = none)
    (hc : p.forward = .failed c err) :
    (run config fp rp p [.forward]).exit = some .fatal ∧
      Event.Fatal err ∈ (run config fp rp p [.forward]).trace := by
  simp [run, step, stepForward, hx, hc]

theorem run_held_reverse (config : Config T) (fp : T.ForwardProxy) (rp : T.ReverseProxy)
    (p : Proc T) (c : Call T) (err : String) (hx : p.exit = none)
    (hc : p.reverse = .failed c err) :
    (run config fp rp p [.reverse, .fatal]).exit = some .fatal ∧
      Event.Fatal err ∈ (run config fp rp p [.reverse, .fatal]).trace := by
  cases c with
  | ListenAndServeTLS addr certFile keyFile handler =>
    simp [run, step, stepReverse, stepFatal, hx, hc]
  | ListenAndServe addr handler =>
    simp [run, step, stepReverse, stepFatal, hx, hc]

theorem run_held_fatal (config : Config T) (fp : T.ForwardProxy) (rp : T.ReverseProxy)
    (p : Proc T) (err : String) (hx : p.exit = none) (hc : p.fatal = some err) :
    (run config fp rp p [.fatal]).exit = some .fatal ∧
      Event.Fatal err ∈ (run config fp rp p [.fatal]).trace := by
  simp [run, step, stepFatal, hx, hc]

theorem run_forward_path (config : Config T) (fp : T.ForwardProxy) (rp : T.ReverseProxy)
    (tr : List (Event T)) (err : String) :
    (run config fp rp (Proc.start tr) [.main, .main, .forward, .fail .forward err, .forward]).exit =
        some .fatal ∧
      (run config fp rp (Proc.start tr)
        [.main, .main, .forward, .fail .forward err, .forward]).trace =
        tr ++ [.Infof ("Starting forward proxy (Listening on '" ++
            config.SignerProxy.ListenAddr ++ "')"),
          .Serve (forwardCall config fp), .Returned (forwardCall config fp) err, .Fatal err] := by
  simp [run, step, Proc.start, stepMain, stepForward, stepFail]

theorem run_reverse_path (config : Config T) (fp : T.ForwardProxy) (rp : T.ReverseProxy)
    (tr : List (Event T)) (err : String) :
    ((run config fp rp (Proc.start tr)
        [.main, .main, .reverse, .fail .reverse err, .reverse, .fatal]).exit = some .fatal ∧
      (run config fp rp (Proc.start tr)
        [.main, .main, .reverse, .fail .reverse err, .reverse, .fatal]).trace =
        tr ++ [.Infof (reverseInfo config), .Serve (reverseCall config rp),
          .Returned (reverseCall config rp) err, .Fatal err]) ∧
    ((reverseCall config rp).isTLS = true →
      (run config fp rp (Proc.start tr)
        [.main, .main, .reverse, .fail .reverse err, .reverse]).exit = some .fatal) ∧
    ((reverseCall config rp).isTLS = false →
      (run config fp rp (Proc.start tr)
        [.main, .main, .reverse, .fail .reverse err, .reverse]).exit = none ∧
      (run config fp rp (Proc.start tr)
        [.main, .main, .reverse, .fail .reverse err, .reverse]).reverse = .done ∧
      (run config fp rp (Proc.start tr)
        [.main, .main, .reverse, .fail .reverse err, .reverse]).fatal = some err) := by
  cases hc : reverseCall config rp with
  | ListenAndServe addr handler =>
    simp [run, step, Proc.start, stepMain, stepReverse, stepFail, stepFatal, hc, Call.isTLS]
  | ListenAndServeTLS addr certFile keyFile handler =>
    simp [run, step, Proc.start, stepMain, stepReverse, stepFail, stepFatal, hc, Call.isTLS]

/-- C3, as stated, fails: a listener error does not always end the process
with a non-zero status. The reverse listener is started without TLS and its
call returns an error; the reverse goroutine runs `go log.Fatal(err)` and
ends; before the new goroutine runs, `SIGTERM` arrives and `main` returns.
The process has ended with status 0, the error was never passed to
`log.Fatal`, and the goroutine that holds it never ran. -/
theorem listener_failure_counterexample :
    (main (demoEnv "" "" []) []
        [.main, .main, .main, .reverse, .fail .reverse "bind: address already in use"]).reverse =
        .failed (.ListenAndServe ":8081" (.inr "verifier")) "bind: address already in use" ∧
      (main (demoEnv "" "" []) []
        [.main, .main, .main, .reverse, .fail .reverse "bind: address already in use",
          .reverse, .signal SIGTERM, .main]).exit = some .returned ∧
      Exit.returned.status = some 0 ∧
      (main (demoEnv "" "" []) []
        [.main, .main, .main, .reverse, .fail .reverse "bind: address already in use",
          .reverse, .signal SIGTERM, .main]).fatal = some "bind: address already in use" ∧
      (main (demoEnv "" "" []) []
        [.main, .main, .main, .reverse, .fail .reverse "bind: address already in use",
          .reverse, .signal SIGTERM, .main]).trace =
        [.Load "", .ParseLevel "info", .SetLevel .Info, .NewJWTSignerHandler "signer",
          .NewJWTVerifierHandler "verifier", .NewProxy "signer" "ca.key" "ca.crt",
          .NewReverseProxy "verifier",
          .Infof "Starting reverse proxy (Listening on ':8081', TLS Disabled)",
          .Serve (.ListenAndServe ":8081" (.inr "verifier")),
          .Returned (.ListenAndServe ":8081" (.inr "verifier"))
            "bind: address already in use"] :=
  ⟨rfl, rfl, rfl, rfl, rfl⟩

/-- C3, amended. A listener call that returns an error hands it to `log.Fatal`
on each of the three paths, and `log.Fatal` ends the process with status 1;
only a signal can end the process before that. After a successful startup:
the forward listener is started, and when its call returns `err` the next
step of its goroutine is `log.Fatal(err)`; the reverse listener is started,
and when its call returns `err` the process ends through `log.Fatal(err)`, in
TLS mode by the next step of the reverse goroutine, otherwise by the
goroutine that `go log.Fatal(...)` makes in that step. Under every schedule:
the same holds from any state in which a listener call is in progress; while
the process runs, every error a listener call has returned is held by a
goroutine whose remaining steps end the process through `log.Fatal` with that
error, so no error is dropped; and a process that has ended did so through
`log.Fatal` on a returned error, or because `main` returned after `SIGINT` or
`SIGTERM`, or by a signal nobody handles. So when no signal was delivered, a
listener error leaves the process either ended through `log.Fatal` or running
with `log.Fatal` still to come. -/
theorem listener_failure_is_fatal (env : Env T) (args : List (String × String))
    (tr : List (Event T)) (config : Config T) (fp : T.ForwardProxy) (rp : T.ReverseProxy)
    (h : startup env args = .ready tr config fp rp) (err : String) :
    ((main env args [.main, .main, .forward, .fail .forward err, .forward]).exit = some .fatal ∧
      (main env args [.main, .main, .forward, .fail .forward err, .forward]).trace =
        tr ++ [.Infof ("Starting forward proxy (Listening on '" ++
            config.SignerProxy.ListenAddr ++ "')"),
          .Serve (forwardCall config fp), .Returned (forwardCall config fp) err, .Fatal err]) ∧
    ((main env args [.main, .main, .reverse, .fail .reverse err, .reverse, .fatal]).exit =
        some .fatal ∧
      (main env args [.main, .main, .reverse, .fail .reverse err, .reverse, .fatal]).trace =
        tr ++ [.Infof (reverseInfo config), .Serve (reverseCall config rp),
          .Returned (reverseCall config rp) err, .Fatal err]) ∧
    ((reverseCall config rp).isTLS = true →
      (main env args [.main, .main, .reverse, .fail .reverse err, .reverse]).exit =
        some .fatal) ∧
    ((reverseCall config rp).isTLS = false →
      (main env args [.main, .main, .reverse, .fail .reverse err, .reverse]).exit = none ∧
      (main env args [.main, .main, .reverse, .fail .reverse err, .reverse]).reverse = .done ∧
      (main env args [.main, .main, .reverse, .fail .reverse err, .reverse]).fatal =
        some err) ∧
    Exit.fatal.status = some 1 ∧
    ∀ sched,
      (∀ c, (main env args sched).exit = none → (main env args sched).forward = .serving c →
        (main env args (sched ++ [.fail .forward err, .forward])).exit = some .fatal ∧
        (main env args (sched ++ [.fail .forward err, .forward])).trace =
          (main env args sched).trace ++ [.Returned c err, .Fatal err]) ∧
      (∀ c, (main env args sched).exit = none → (main env args sched).reverse = .serving c →
        c.isTLS = true →
        (main env args (sched ++ [.fail .reverse err, .reverse])).exit = some .fatal ∧
        (main env args (sched ++ [.fail .reverse err, .reverse])).trace =
          (main env args sched).trace ++ [.Returned c err, .Fatal err]) ∧
      (∀ c, (main env args sched).exit = none → (main env args sched).reverse = .serving c →
        c.isTLS = false →
        ((main env args (sched ++ [.fail .reverse err, .reverse])).exit = none ∧
          (main env args (sched ++ [.fail .reverse err, .reverse])).reverse = .done ∧
          (main env args (sched ++ [.fail .reverse err, .reverse])).fatal = some err) ∧
        (main env args (sched ++ [.fail .reverse err, .reverse, .fatal])).exit = some .fatal ∧
        (main env args (sched ++ [.fail .reverse err, .reverse, .fatal])).trace =
          (main env args sched).trace ++ [.Returned c err, .Fatal err]) ∧
      (∀ c e, (main env args sched).exit = none →
        Event.Returned c e ∈ (main env args sched).trace →
        ((main env args sched).forward = .failed c e ∧
          (main env args (sched ++ [.forward])).exit = some .fatal ∧
          Event.Fatal e ∈ (main env args (sched ++ [.forward])).trace) ∨
        ((main env args sched).reverse = .failed c e ∧
          (main env args (sched ++ [.reverse, .fatal])).exit = some .fatal ∧
          Event.Fatal e ∈ (main env args (sched ++ [.reverse, .fatal])).trace) ∨
        ((main env args sched).fatal = some e ∧
          (main env args (sched ++ [.fatal])).exit = some .fatal ∧
          Event.Fatal e ∈ (main env args (sched ++ [.fatal])).trace)) ∧
      (∀ x, (main env args sched).exit = some x →
        (x = .fatal ∧ ∃ c e, Event.Returned c e ∈ (main env args sched).trace ∧
          (main env args sched).trace.getLast? = some (.Fatal e)) ∨
        (x = .returned ∧ ∃ s ∈ (main env args sched).delivered, s = SIGINT ∨ s = SIGTERM) ∨
        ∃ s, x = .killed s ∧ s ∈ (main env args sched).delivered) ∧
      ((main env args sched).delivered = [] →
        (main env args sched).exit = none ∨ (main env args sched).exit = some .fatal) := by
  have hD : ∀ sched x, (main env args sched).exit = some x →
      (x = .fatal ∧ ∃ c e, Event.Returned c e ∈ (main env args sched).trace ∧
        (main env args sched).trace.getLast? = some (.Fatal e)) ∨
      (x = .returned ∧ ∃ s ∈ (main env args sched).delivered, s = SIGINT ∨ s = SIGTERM) ∨
      ∃ s, x = .killed s ∧ s ∈ (main env args sched).delivered := by
    intro sched x hx
    rcases (main_endInv env args sched tr config fp rp h).ended x hx with h₁ | h₁ | h₁
    · exact Or.inl h₁
    · subst h₁
      have hinv := main_signalInv env args sched
      exact Or.inr (Or.inl ⟨rfl, (hinv.ret (hinv.exit_ret hx)).2⟩)
    · exact Or.inr (Or.inr h₁)
  refine ⟨?_, ?_, ?_, ?_, rfl, ?_⟩
  · rw [main_of_ready env args _ tr config fp rp h]
    exact run_forward_path config fp rp tr err
  · rw [main_of_ready env args _ tr config fp rp h]
    exact (run_reverse_path config fp rp tr err).1
  · rw [main_of_ready env args _ tr config fp rp h]
    exact (run_reverse_path config fp rp tr err).2.1
  · rw [main_of_ready env args _ tr config fp rp h]
    exact (run_reverse_path config fp rp tr err).2.2
  · intro sched
    refine ⟨?_, ?_, ?_, ?_, hD sched, ?_⟩
    · intro c hx hc
      rw [main_append env args sched _ tr config fp rp h]
      exact run_fail_forward config fp rp _ c err hx hc
    · intro c hx hc htls
      rw [main_append env args sched _ tr config fp rp h]
      exact run_fail_reverse_tls config fp rp _ c err hx hc htls
    · intro c hx hc htls
      rw [main_append env args sched _ tr config fp rp h,
        main_append env args sched _ tr config fp rp h]
      exact run_fail_reverse_plain config fp rp _ c err hx hc htls
    · intro c e hx hc
      rw [main_append env args sched _ tr config fp rp h,
        main_append env args sched _ tr config fp rp h,
        main_append env args sched _ tr config fp rp h]
      rcases (main_wireInv env args sched tr config fp rp h).held hx c e hc with hh | hh | hh
      · exact Or.inl ⟨hh, run_held_forward config fp rp _ c e hx hh⟩
      · exact Or.inr (Or.inl ⟨hh, run_held_reverse config fp rp _ c e hx hh⟩)
      · exact Or.inr (Or.inr ⟨hh, run_held_fatal config fp rp _ e hx hh⟩)
    · intro hd
      cases hx : (main env args sched).exit with
      | none => exact Or.inl rfl
      | some x =>
        rcases hD sched x hx with h₁ | ⟨-, s, hs, -⟩ | ⟨s, -, hs⟩
        · rw [h₁.1]
          exact Or.inr rfl
        · rw [hd] at hs
          simp at hs
        · rw [hd] at hs
          simp at hs

theorem listener_failure_is_fatal_witness :
    startup (demoEnv "server.crt" "server.key" []) [] =
        .ready [.Load "", .ParseLevel "info", .SetLevel .Info, .NewJWTSignerHandler "signer",
          .NewJWTVerifierHandler "verifier", .NewProxy "signer" "ca.key" "ca.crt",
          .NewReverseProxy "verifier"] (demoConfig "server.crt" "server.key") "signer"
          "verifier" ∧
      (reverseCall (demoConfig "server.crt" "server.key") "verifier").isTLS = true ∧
      (main (demoEnv "server.crt" "server.key" []) []
        [.main, .main, .reverse, .fail .reverse "bind: address already in use",
          .reverse]).exit = some .fatal ∧
      (main (demoEnv "server.crt" "server.key" []) []
        [.main, .main, .forward, .fail .forward "bind: address already in use",
          .forward]).exit = some .fatal :=
  ⟨rfl, rfl,
    (listener_failure_is_fatal (demoEnv "server.crt" "server.key" []) [] _ _ _ _ rfl
      "bind: address already in use").2.2.1 rfl,
    (listener_failure_is_fatal (demoEnv "server.crt" "server.key" []) [] _ _ _ _ rfl
      "bind: address already in use").1.1⟩

end ListenerFailure

/-! ## Process lifecycle -/

section Lifecycle

variable {T : Collab}

theorem waitInv_act (signals : List Signal) (r : WaitRun) (a : WaitAction)
    (h : WaitInv signals r) : WaitInv signals (r.act a) := by
  obtain ⟨h₁, h₂, h₃, h₄⟩ := h
  rcases r with ⟨⟨sigs, pc, ch⟩, rc, dl⟩
  simp only at h₁ h₂ h₃ h₄
  subst h₁
  cases a with
  | step =>
    cases pc with
    | notify =>
      constructor
      · rfl
      · exact h₂
      · simpa [WaitRun.act, WaitFrame.takes] using h₃
      · simp [WaitRun.act, WaitFrame.step]
    | receive =>
      cases ch with
      | nil =>
        constructor
        · rfl
        · simp [WaitRun.act, WaitFrame.step]
        · simpa [WaitRun.act, WaitFrame.takes] using h₃
        · simp [WaitRun.act, WaitFrame.step]
      | cons s rest =>
        constructor
        · rfl
        · intro t ht
          exact h₂ t (by
            simp only [WaitRun.act, WaitFrame.step] at ht
            exact List.mem_cons_of_mem _ ht)
        · intro t ht
          simp only [WaitRun.act, WaitFrame.takes, List.take_succ_cons, List.take_zero,
            List.mem_append, List.mem_singleton] at ht
          rcases ht with ht | ht
          · exact h₃ t ht
          · subst ht
            exact h₂ t (by simp)
        · simp [WaitRun.act, WaitFrame.takes]
    | returned =>
      constructor
      · rfl
      · exact h₂
      · simpa [WaitRun.act, WaitFrame.takes] using h₃
      · simpa [WaitRun.act, WaitFrame.takes, WaitFrame.step] using h₄
  | signal s =>
    constructor
    · simp only [WaitRun.act, WaitFrame.signal]
      split <;> rfl
    · intro t ht
      simp only [WaitRun.act, WaitFrame.signal] at ht ⊢
      split at ht
      · rename_i hc
        simp only [List.mem_append, List.mem_singleton] at ht ⊢
        rcases ht with ht | ht
        · exact ⟨Or.inl (h₂ t ht).1, (h₂ t ht).2⟩
        · subst ht
          refine ⟨Or.inr rfl, ?_⟩
          simp only [WaitFrame.catches, Bool.and_eq_true] at hc
          exact hc.1.2
      · exact ⟨List.mem_append.mpr (Or.inl (h₂ t ht).1), (h₂ t ht).2⟩
    · intro t ht
      simp only [WaitRun.act] at ht ⊢
      exact ⟨List.mem_append.mpr (Or.inl (h₃ t ht).1), (h₃ t ht).2⟩
    · intro hp
      simp only [WaitRun.act, WaitFrame.signal] at hp ⊢
      apply h₄
      split at hp <;> exact hp

theorem waitInv_foldl (signals : List Signal) (sched : List WaitAction) (r : WaitRun)
    (h : WaitInv signals r) : WaitInv signals (sched.foldl WaitRun.act r) := by
  induction sched generalizing r with
  | nil => exact h
  | cons a rest ih => exact ih _ (waitInv_act signals r a h)

theorem waitInv_run (signals : List Signal) (sched : List WaitAction) :
    WaitInv signals (waitForSignals.run signals sched) := by
  apply waitInv_foldl
  constructor <;> simp [waitForSignals]

theorem waitForSignals_returns (signals : List Signal) (s : Signal) (hs : s ∈ signals) :
    (waitForSignals.run signals [.step, .signal s, .step]).frame.pc = .returned ∧
      (waitForSignals.run signals [.step, .signal s, .step]).received = [s] := by
  have hc : (signals = [] ∨ s ∈ signals) := Or.inr hs
  simp [waitForSignals.run, WaitRun.act, waitForSignals, WaitFrame.step, WaitFrame.signal,
    WaitFrame.catches, WaitFrame.takes, relays, hc]

end Lifecycle

section LifecycleMain

variable {T : Collab}

theorem step_forward_frame (config : Config T) (fp : T.ForwardProxy) (rp : T.ReverseProxy)
    (p : Proc T) :
    (step config fp rp p .forward).reverse = p.reverse ∧
      (step config fp rp p .forward).main = p.main := by
  unfold step
  split
  · exact ⟨rfl, rfl⟩
  · simp only [stepForward]
    split <;> exact ⟨rfl, rfl⟩

theorem step_reverse_frame (config : Config T) (fp : T.ForwardProxy) (rp : T.ReverseProxy)
    (p : Proc T) :
    (step config fp rp p .reverse).forward = p.forward ∧
      (step config fp rp p .reverse).main = p.main := by
  unfold step
  split
  · exact ⟨rfl, rfl⟩
  · simp only [stepReverse]
    split <;> exact ⟨rfl, rfl⟩

theorem step_main_blocked (config : Config T) (fp : T.ForwardProxy) (rp : T.ReverseProxy)
    (p : Proc T) (f : WaitFrame) (hm : p.main = .waiting f) (hpc : f.pc = .receive)
    (hch : f.interrupts = []) : step config fp rp p .main = p := by
  unfold step
  split
  · rfl
  · rcases f with ⟨sigs, pc, ch⟩
    simp only at hpc hch
    subst hpc hch
    rcases p with ⟨ex, trc, m, fw, rv, ft, dl⟩
    simp only at hm
    subst hm
    simp [stepMain, WaitFrame.step]

theorem step_main_returns (config : Config T) (fp : T.ForwardProxy) (rp : T.ReverseProxy)
    (p : Proc T) (f : WaitFrame) (hx : p.exit = none) (hm : p.main = .waiting f)
    (hpc : f.pc = .receive) (hch : f.interrupts ≠ []) :
    (step config fp rp p .main).main = .returned ∧
      (step config fp rp p .main).exit = some .returned := by
  have hret : f.step.pc = .returned := (waitFrame_step_returned f).mpr (Or.inr ⟨hpc, hch⟩)
  simp [step, hx, stepMain, hm, hret]

/-- C4. After a successful startup: each listener is started by its own
goroutine, and neither waits for the other nor `main` for them (the forward
call is reached while the reverse goroutine has not begun, and conversely;
`main` reaches the receive of `waitForSignals` while neither has begun; a step
of one listener goroutine leaves the other and `main` where they are). The
call `main` blocks in is `waitForSignals(SIGINT, SIGTERM)`: at the receive
with an empty channel a step of `main` changes nothing. Under every schedule,
`main` has returned only if `SIGINT` or `SIGTERM` was delivered before, and
once one of them was delivered the process has ended or the next step of
`main` returns, which ends the process. The call `waitForSignals(SIGINT,
SIGTERM)`, as every call of `waitForSignals` with at least one signal, has
returned only if it received on its channel a delivered signal of the given
set; and it does return once such a signal has arrived at the receive. -/
theorem process_lifecycle (env : Env T) (args : List (String × String))
    (tr : List (Event T)) (config : Config T) (fp : T.ForwardProxy) (rp : T.ReverseProxy)
    (h : startup env args = .ready tr config fp rp) :
    ((main env args [.main, .main, .forward]).forward = .serving (forwardCall config fp) ∧
      (main env args [.main, .main, .forward]).reverse = .runnable) ∧
    ((main env args [.main, .main, .reverse]).reverse = .serving (reverseCall config rp) ∧
      (main env args [.main, .main, .reverse]).forward = .runnable) ∧
    ((main env args [.main, .main, .main]).main = .waiting ⟨[SIGINT, SIGTERM], .receive, []⟩ ∧
      (main env args [.main, .main, .main]).forward = .runnable ∧
      (main env args [.main, .main, .main]).reverse = .runnable ∧
      (main env args [.main, .main, .main]).exit = none) ∧
    (∀ sched,
      (main env args (sched ++ [.forward])).reverse = (main env args sched).reverse ∧
      (main env args (sched ++ [.forward])).main = (main env args sched).main ∧
      (main env args (sched ++ [.reverse])).forward = (main env args sched).forward ∧
      (main env args (sched ++ [.reverse])).main = (main env args sched).main) ∧
    (∀ sched f, (main env args sched).main = .waiting f →
      f.signals = [SIGINT, SIGTERM] ∧
      (f.pc = .receive → f.interrupts = [] →
        main env args (sched ++ [.main]) = main env args sched)) ∧
    (∀ sched,
      (main env args sched).main = .returned ∨ (main env args sched).exit = some .returned →
      ∃ s ∈ (main env args sched).delivered, s = SIGINT ∨ s = SIGTERM) ∧
    (∀ sched, (∃ s ∈ (main env args sched).delivered, s = SIGINT ∨ s = SIGTERM) →
      (main env args sched).exit ≠ none ∨
      ((main env args (sched ++ [.main])).main = .returned ∧
        (main env args (sched ++ [.main])).exit = some .returned)) ∧
    (∀ wsched, (waitForSignals.run [SIGINT, SIGTERM] wsched).frame.pc = .returned →
      ∃ s ∈ (waitForSignals.run [SIGINT, SIGTERM] wsched).received,
        s ∈ (waitForSignals.run [SIGINT, SIGTERM] wsched).delivered ∧
          (s = SIGINT ∨ s = SIGTERM)) ∧
    (∀ signals wsched, signals ≠ [] →
      (waitForSignals.run signals wsched).frame.pc = .returned →
      ∃ s ∈ (waitForSignals.run signals wsched).received,
        s ∈ (waitForSignals.run signals wsched).delivered ∧ s ∈ signals) ∧
    (∀ signals s, s ∈ signals →
      (waitForSignals.run signals [.step, .signal s, .step]).frame.pc = .returned ∧
      (waitForSignals.run signals [.step, .signal s, .step]).received = [s]) := by
  have hwait : ∀ signals wsched, signals ≠ [] →
      (waitForSignals.run signals wsched).frame.pc = .returned →
      ∃ s ∈ (waitForSignals.run signals wsched).received,
        s ∈ (waitForSignals.run signals wsched).delivered ∧ s ∈ signals := by
    intro signals wsched hne hret
    have hinv := waitInv_run signals wsched
    obtain ⟨s, rest, hs⟩ := List.exists_cons_of_ne_nil (hinv.returned hret)
    have hmem : s ∈ (waitForSignals.run signals wsched).received := by simp [hs]
    obtain ⟨h₁, h₂⟩ := hinv.received s hmem
    refine ⟨s, hmem, h₁, ?_⟩
    simp only [relays, Bool.or_eq_true, List.isEmpty_iff, List.contains_eq_any_beq,
      List.any_eq_true, beq_iff_eq] at h₂
    rcases h₂ with h₂ | ⟨t, ht, hst⟩
    · exact absurd h₂ hne
    · exact hst ▸ ht
  refine ⟨?_, ?_, ?_, ?_, ?_, ?_, ?_, ?_, hwait, waitForSignals_returns⟩
  · simp [main_of_ready env args _ tr config fp rp h, run, step, Proc.start, stepMain,
      stepForward]
  · simp [main_of_ready env args _ tr config fp rp h, run, step, Proc.start, stepMain,
      stepReverse]
  · simp [main_of_ready env args _ tr config fp rp h, run, step, Proc.start, stepMain,
      waitForSignals, WaitFrame.step]
  · intro sched
    rw [main_append env args sched _ tr config fp rp h,
      main_append env args sched _ tr config fp rp h]
    simp only [run]
    exact ⟨(step_forward_frame config fp rp _).1, (step_forward_frame config fp rp _).2,
      (step_reverse_frame config fp rp _).1, (step_reverse_frame config fp rp _).2⟩
  · intro sched f hm
    refine ⟨((main_signalInv env args sched).frame f hm).1, ?_⟩
    intro hpc hch
    rw [main_append env args sched _ tr config fp rp h]
    simp only [run]
    exact step_main_blocked config fp rp _ f hm hpc hch
  · intro sched hr
    have hinv := main_signalInv env args sched
    rcases hr with hr | hr
    · exact (hinv.ret hr).2
    · exact (hinv.ret (hinv.exit_ret hr)).2
  · intro sched hd
    by_cases hx : (main env args sched).exit = none
    · right
      rcases (main_signalInv env args sched).progress hd with hp | ⟨f, hm, hpc, hch⟩
      · exact absurd hx hp
      · rw [main_append env args sched _ tr config fp rp h]
        simp only [run]
        exact step_main_returns config fp rp _ f hx hm hpc hch
    · exact Or.inl hx
  · intro wsched hret
    obtain ⟨s, hs, hd, hm⟩ := hwait [SIGINT, SIGTERM] wsched (by simp) hret
    exact ⟨s, hs, hd, by simpa using hm⟩

theorem process_lifecycle_witness :
    startup (demoEnv "" "" []) [] =
        .ready [.Load "", .ParseLevel "info", .SetLevel .Info, .NewJWTSignerHandler "signer",
          .NewJWTVerifierHandler "verifier", .NewProxy "signer" "ca.key" "ca.crt",
          .NewReverseProxy "verifier"] (demoConfig "" "") "signer" "verifier" ∧
      (∃ s ∈ (main (demoEnv "" "" []) []
          [.main, .main, .main, .forward, .reverse, .signal SIGTERM]).delivered,
        s = SIGINT ∨ s = SIGTERM) ∧
      ((main (demoEnv "" "" []) []
          [.main, .main, .main, .forward, .reverse, .signal SIGTERM]).exit ≠ none ∨
        ((main (demoEnv "" "" []) []
            ([.main, .main, .main, .forward, .reverse, .signal SIGTERM] ++ [.main])).main =
            .returned ∧
          (main (demoEnv "" "" []) []
            ([.main, .main, .main, .forward, .reverse, .signal SIGTERM] ++ [.main])).exit =
            some .returned)) :=
  ⟨rfl, ⟨SIGTERM, by decide, Or.inr rfl⟩,
    (process_lifecycle (demoEnv "" "" []) [] _ _ _ _ rfl).2.2.2.2.2.2.1
      [.main, .main, .main, .forward, .reverse, .signal SIGTERM]
      ⟨SIGTERM, by decide, Or.inr rfl⟩⟩

end LifecycleMain

/-! ## The Token Engine: round trip and replay -/

namespace TokenEngine

theorem checkAndInsert_fresh (now : Int) (id : String) (ttl : Int) :
    NonceStore.fresh.CheckAndInsert now id ttl = (true, [⟨id, now + ttl⟩]) := by
  simp [NonceStore.CheckAndInsert, NonceStore.fresh, NonceStore.purge]

theorem checkAndInsert_again (store store₁ : NonceStore) (now₁ now₂ : Int) (id : String)
    (ttl : Int) (h : store.CheckAndInsert now₁ id ttl = (true, store₁))
    (hnow : now₂ ≤ now₁ + ttl) (ttl₂ : Int) :
    (store₁.CheckAndInsert now₂ id ttl₂).1 = false := by
  unfold NonceStore.CheckAndInsert at h
  split at h
  · simp at h
  · simp only [Prod.mk.injEq, true_and] at h
    subst h
    have : (NonceStore.purge (⟨id, now₁ + ttl⟩ :: store.purge now₁) now₂).any
        (fun r => r.id == id) = true := by
      simp only [NonceStore.purge, List.filter_cons, decide_eq_true_eq, hnow, if_true,
        List.any_cons, beq_self_eq_true, Bool.true_or]
    simp only [NonceStore.CheckAndInsert, this, if_true]

/-- C7. Mint and Verify round trip. Let the wire format decode what it
encodes, let the signer hold a private key with which signing succeeds, let
the Key Resolver map `identity` to a public key under which every signature
made with that private key checks, and let the signing algorithm be on the
verifier's allow-list. Then for every identity, audience, token id and minting
time `t₀`, and every `now` from `t₀` to `t₀ + ttl`: Mint returns a token for
`(identity, audience)`, and that token verifies against a fresh Nonce Store
with expected audience `audience` at time `now`, with result `identity`. -/
theorem mint_verify_round_trip (S : Suite) (source : PrivateKeySource S) (v : Verifier S)
    (ttl : Nat) (identity audience : Identity) (t₀ now : Int) (id : String)
    (privateKey : S.PrivateKey) (publicKey : S.PublicKey) (signature : S.Signature)
    (hcodec : ∀ alg claims signature,
      S.decode (S.encode alg claims signature) = some (alg, claims, signature))
    (hkey : source.CurrentKey = some privateKey)
    (hsign : S.sign privateKey ⟨identity, audience, t₀, t₀ + ttl, id⟩ = some signature)
    (hresolve : v.resolver.Resolve identity = some publicKey)
    (hmatch : ∀ claims signature, S.sign privateKey claims = some signature →
      S.check S.alg publicKey claims signature = true)
    (halg : S.alg ∈ v.allowed)
    (hnow : t₀ ≤ now ∧ now ≤ t₀ + ttl) :
    ∃ token, Mint S source ttl identity audience t₀ id = .ok token ∧
      (Verify S v NonceStore.fresh token audience now).1 = .ok identity := by
  refine ⟨S.encode S.alg ⟨identity, audience, t₀, t₀ + ttl, id⟩ signature, ?_, ?_⟩
  · simp only [Mint, hkey, hsign]
  · have hcheck := hmatch _ signature hsign
    have hallowed : v.allowed.contains S.alg = true := by simpa using halg
    have h₁ : ¬ (t₀ + (ttl : Int) < now) := by omega
    have h₂ : ¬ (now < t₀ - (v.skew : Int)) := by omega
    simp only [Verify, hcodec, hresolve, hallowed, hcheck, Bool.and_self, Bool.not_true,
      Bool.false_eq_true, if_false, h₁, h₂, ne_eq, not_true_eq_false, checkAndInsert_fresh]

theorem mint_verify_round_trip_witness :
    (∀ alg claims signature,
        demoSuite.decode (demoSuite.encode alg claims signature) = some (alg, claims, signature)) ∧
      demoSuite.sign (7 : Nat) ⟨"svc-a", "svc-b", 1000, 1000 + (30 : Nat), "n-1"⟩ =
        some (10 : Nat) ∧
      (∀ claims signature, demoSuite.sign (7 : Nat) claims = some signature →
        demoSuite.check demoSuite.alg (7 : Nat) claims signature = true) ∧
      ∃ token, Mint demoSuite ⟨some (7 : Nat)⟩ 30 "svc-a" "svc-b" 1000 "n-1" = .ok token ∧
        (Verify demoSuite demoVerifier NonceStore.fresh token "svc-b" 1030).1 = .ok "svc-a" :=
  have hcodec : ∀ alg claims signature,
      demoSuite.decode (demoSuite.encode alg claims signature) = some (alg, claims, signature) :=
    fun _ _ _ => rfl
  have hmatch : ∀ claims signature, demoSuite.sign (7 : Nat) claims = some signature →
      demoSuite.check demoSuite.alg (7 : Nat) claims signature = true := by
    intro claims signature h
    simp only [demoSuite, Option.some.injEq] at h
    subst h
    simp [demoSuite]
  ⟨hcodec, rfl, hmatch,
    mint_verify_round_trip demoSuite ⟨some (7 : Nat)⟩ demoVerifier 30 "svc-a" "svc-b" 1000 1030
      "n-1" (7 : Nat) (7 : Nat) (10 : Nat) hcodec rfl rfl rfl hmatch (by decide) (by decide)⟩

end TokenEngine

namespace TokenEngine

/-- What a successful verification tells about the token. -/
theorem verify_ok (S : Suite) (v : Verifier S) (store store₁ : NonceStore) (token : S.Wire)
    (audience identity : Identity) (now : Int) (alg : String) (claims : Claims)
    (signature : S.Signature)
    (h : Verify S v store token audience now = (.ok identity, store₁))
    (hdec : S.decode token = some (alg, claims, signature)) :
    ∃ key, v.resolver.Resolve claims.issuer = some key ∧
      (v.allowed.contains alg && S.check alg key claims signature) = true ∧
      claims.audience = audience ∧ claims.issuer = identity ∧
      store.CheckAndInsert now claims.id (claims.expiresAt - now) = (true, store₁) := by
  unfold Verify at h
  rw [hdec] at h
  simp only at h
  split at h
  · simp at h
  · rename_i key hkey
    refine ⟨key, hkey, ?_⟩
    split at h
    · simp at h
    · rename_i hsig
      split at h
      · simp at h
      · split at h
        · simp at h
        · split at h
          · simp at h
          · rename_i haud
            split at h
            · rename_i store' hci
              simp only [Prod.mk.injEq, Except.ok.injEq] at h
              obtain ⟨h₁, h₂⟩ := h
              subst h₂
              refine ⟨?_, ?_, h₁, hci⟩
              · simpa using hsig
              · simpa using haud
            · simp at h

/-- C8. Replay prevention. If a token verifies, then verifying the same token
again against the Nonce Store the first call left, with the same expected
audience and at a time within the validity window of the token, fails with
`ReplayDetected`: of the two calls exactly the first succeeds. The Nonce Store
`main.go` links in is the local one, held in the memory of the process:
against the fresh store of another process the same token verifies again. -/
theorem replay_is_detected (S : Suite) (v : Verifier S) (store store₁ : NonceStore)
    (token : S.Wire) (audience identity : Identity) (now₁ now₂ : Int) (alg : String)
    (claims : Claims) (signature : S.Signature)
    (hfirst : Verify S v store token audience now₁ = (.ok identity, store₁))
    (hdec : S.decode token = some (alg, claims, signature))
    (hwindow : claims.issuedAt - v.skew ≤ now₂ ∧ now₂ ≤ claims.expiresAt) :
    (Verify S v store₁ token audience now₂).1 = .error .ReplayDetected ∧
    ((Verify S v store token audience now₁).1 = .ok identity ∧
      ∀ other, (Verify S v store₁ token audience now₂).1 ≠ .ok other) ∧
    (blankImports.filter (fun i => i.1 = "noncestorage")).map (fun i => i.2) = ["local"] ∧
    (Verify S v NonceStore.fresh token audience now₂).1 = .ok identity := by
  obtain ⟨key, hkey, hsig, haud, hiss, hci⟩ :=
    verify_ok S v store store₁ token audience identity now₁ alg claims signature hfirst hdec
  subst hiss
  have h₁ : ¬ (claims.expiresAt < now₂) := by omega
  have h₂ : ¬ (now₂ < claims.issuedAt - (v.skew : Int)) := by omega
  have hagain := checkAndInsert_again store store₁ now₁ now₂ claims.id
    (claims.expiresAt - now₁) hci (by omega) (claims.expiresAt - now₂)
  have hsecond : (Verify S v store₁ token audience now₂).1 = .error .ReplayDetected := by
    simp only [Verify, hdec, hkey, hsig, Bool.not_true, Bool.false_eq_true, if_false, h₁, h₂,
      haud, ne_eq, not_true_eq_false]
    split
    · rename_i store' hc
      rw [hc] at hagain
      simp at hagain
    · rfl
  refine ⟨hsecond, ⟨by rw [hfirst], ?_⟩, by decide, ?_⟩
  · intro other
    rw [hsecond]
    simp
  · simp only [Verify, hdec, hkey, hsig, Bool.not_true, Bool.false_eq_true, if_false, h₁, h₂,
      haud, ne_eq, not_true_eq_false, checkAndInsert_fresh]

theorem replay_is_detected_witness :
    Verify demoSuite demoVerifier NonceStore.fresh
        ("RS256", ⟨"svc-a", "svc-b", 1000, 1030, "n-1"⟩, (10 : Nat)) "svc-b" 1001 =
        (.ok "svc-a", [⟨"n-1", 1030⟩]) ∧
      (Verify demoSuite demoVerifier [⟨"n-1", 1030⟩]
        ("RS256", ⟨"svc-a", "svc-b", 1000, 1030, "n-1"⟩, (10 : Nat)) "svc-b" 1030).1 =
        .error .ReplayDetected :=
  ⟨rfl,
    (replay_is_detected demoSuite demoVerifier NonceStore.fresh [⟨"n-1", 1030⟩]
      ("RS256", ⟨"svc-a", "svc-b", 1000, 1030, "n-1"⟩, (10 : Nat)) "svc-b" "svc-a" 1001 1030
      "RS256" ⟨"svc-a", "svc-b", 1000, 1030, "n-1"⟩ (10 : Nat) rfl rfl
      (by decide)).1⟩

end TokenEngine

end JwtProxy
